import Mathlib

/-!
# Verification of the janus-ftl-orchestrator core

A shallow embedding, in Lean 4, of the FTL Orchestrator core: the
orchestration-protocol byte codec, the `FtlConnection` message processing and
framing state machine (src/inc/FtlConnection.h), the `StreamStore` and
`SubscriptionStore` (src/src/StreamStore.h, src/src/SubscriptionStore.h), and
the `Orchestrator` event handlers (src/src/Orchestrator.cpp).

Modelling conventions:
* wire bytes are `Nat` values below 256 (`std::byte` / `uint8_t`);
* C strings and byte vectors become `List Nat`;
* fixed-width C integers become `Nat`, with `% 2^w` written out wherever the
  source truncates (casts to narrower types);
* C bitwise operations on byte boundaries are written with `%`, `/` and `*`
  (e.g. `value & 0xFF` is `value % 256`, and `(hi << 8) | lo` for a byte `lo`
  is `hi * 256 + lo`), which agree with the source for in-range bytes;
* `std::endian::native == std::endian::big` is the explicit parameter
  `hostBig : Bool`; both code paths of every endian-dependent function are
  modelled;
* functions that can `throw` return `Except String`;
* connections (`std::shared_ptr<TConnection>`) are modelled by numeric ids.
  `GetHostname()` is injective on live connections in every modelled scenario,
  so a relay instruction records the target edge connection id where the code
  sends `edgeConnection->GetHostname()`;
* `std::map` becomes an association list (`alookup`/`aset`/`aerase` below);
  key⟶value semantics agree with the ordered map, only iteration order (unused
  by the modelled code paths) differs;
* `std::set<std::shared_ptr<T>>` (a set of always-distinct freshly-allocated
  pointers) becomes a list, with insertion modelled by append and
  erase-by-pointer modelled by `List.erase` (first occurrence).
-/

deriving instance DecidableEq for Except

namespace JanusFtl

/-- `OrchestrationMessageDirectionKind` (OrchestrationProtocolTypes.h). -/
inductive OrchestrationMessageDirectionKind where
  | Request
  | Response
deriving DecidableEq, Repr

export OrchestrationMessageDirectionKind (Request Response)

/-- `OrchestrationMessageHeader` (OrchestrationProtocolTypes.h).  `MessageType`
is kept as the raw numeric value of the `uint8_t`-backed enum
(Intro=0, Outro=1, NodeState=2, ChannelSubscription=16, StreamPublish=17,
StreamRelay=20); `MessageId` is a `uint8_t` and `MessagePayloadLength` a
`uint16_t`. -/
structure OrchestrationMessageHeader where
  MessageDirection : OrchestrationMessageDirectionKind
  MessageFailure : Bool
  MessageType : Nat
  MessageId : Nat
  MessagePayloadLength : Nat
deriving DecidableEq, Repr

/-- `FtlConnection::ConvertToNetworkPayload(uint16_t)` (FtlConnection.h:131).
When the host is not big-endian the code emits `value & 0xFF` first and then
`(value >> 8) & 0xFF`; on a big-endian host the order is reversed. -/
def ConvertToNetworkPayload16 (hostBig : Bool) (value : Nat) : List Nat :=
  if hostBig = false then
    [value % 256, value / 256 % 256]
  else
    [value / 256 % 256, value % 256]

/-- `FtlConnection::ConvertToNetworkPayload(uint32_t)` (FtlConnection.h:158). -/
def ConvertToNetworkPayload32 (hostBig : Bool) (value : Nat) : List Nat :=
  if hostBig = false then
    [value % 256, value / 2 ^ 8 % 256, value / 2 ^ 16 % 256, value / 2 ^ 24 % 256]
  else
    [value / 2 ^ 24 % 256, value / 2 ^ 16 % 256, value / 2 ^ 8 % 256, value % 256]

/-- `FtlConnection::DeserializeNetworkUint16` (FtlConnection.h:186): throws
unless the slice is exactly 2 bytes, then combines the bytes according to the
host byte order. -/
def DeserializeNetworkUint16 (hostBig : Bool) (bytes : List Nat) : Except String Nat :=
  match bytes, hostBig with
  | [b0, b1], false => .ok (b1 * 256 + b0)
  | [b0, b1], true => .ok (b0 * 256 + b1)
  | _, _ => .error "Deserializing uint16 requires a 2 byte payload."

/-- `FtlConnection::DeserializeNetworkUint32` (FtlConnection.h:212). -/
def DeserializeNetworkUint32 (hostBig : Bool) (bytes : List Nat) : Except String Nat :=
  match bytes, hostBig with
  | [b0, b1, b2, b3], false =>
      .ok (b3 * 2 ^ 24 + b2 * 2 ^ 16 + b1 * 2 ^ 8 + b0)
  | [b0, b1, b2, b3], true =>
      .ok (b0 * 2 ^ 24 + b1 * 2 ^ 16 + b2 * 2 ^ 8 + b3)
  | _, _ => .error "Deserializing uint32 requires a 4 byte payload."

/-- The descriptor byte built by `FtlConnection::SerializeMessageHeader`
(FtlConnection.h:104-112): start from the message type, set bit 7 for a
response, then set bit 6 for a failure. -/
def messageDescByte (msgType : Nat) (isResponse isFailure : Bool) : Nat :=
  let d0 := msgType % 256
  let d1 := if isResponse then d0 ||| 128 else d0
  if isFailure then d1 ||| 64 else d1

/-- `FtlConnection::SerializeMessageHeader` (FtlConnection.h:98). -/
def SerializeMessageHeader (hostBig : Bool) (header : OrchestrationMessageHeader) :
    List Nat :=
  messageDescByte header.MessageType (header.MessageDirection = Response)
      header.MessageFailure ::
    header.MessageId % 256 ::
    ConvertToNetworkPayload16 hostBig header.MessagePayloadLength

/-- `FtlConnection::ParseMessageHeader` (FtlConnection.h:53): throws when fewer
than 4 bytes are available; bit 7 of byte 0 is the direction, bit 6 the failure
flag, bits 5..0 the type; byte 1 the message id; bytes 2..3 the payload length,
combined according to the host byte order. -/
def ParseMessageHeader (hostBig : Bool) (bytes : List Nat) :
    Except String OrchestrationMessageHeader :=
  match bytes with
  | b0 :: b1 :: b2 :: b3 :: _ =>
      .ok
        { MessageDirection := if b0 &&& 128 = 0 then Request else Response
          MessageFailure := b0 &&& 64 != 0
          MessageType := b0 &&& 63
          MessageId := b1
          MessagePayloadLength := if hostBig = false then b3 * 256 + b2 else b2 * 256 + b3 }
  | _ => .error "Attempt to parse message header that is under 4 bytes."

/-- Bit-extraction facts about the descriptor byte, for message types that fit
in the low 6 bits; proved by exhaustive evaluation. -/
theorem messageDescByte_extract_fin :
    ∀ t : Fin 64, ∀ r f : Bool,
      (messageDescByte t.val r f &&& 128 = 0 ↔ r = false) ∧
      ((messageDescByte t.val r f &&& 64 != 0) = f) ∧
      (messageDescByte t.val r f &&& 63 = t.val) := by decide

theorem messageDescByte_extract (t : Nat) (ht : t < 64) (r f : Bool) :
    (messageDescByte t r f &&& 128 = 0 ↔ r = false) ∧
    ((messageDescByte t r f &&& 64 != 0) = f) ∧
    (messageDescByte t r f &&& 63 = t) :=
  messageDescByte_extract_fin ⟨t, ht⟩ r f

/-- **C5** — Framing round-trip: for every message header whose `MessageType`
value fits in the low 6 bits (and whose `MessageId` and
`MessagePayloadLength` are in the range of their `uint8_t`/`uint16_t` fields),
`ParseMessageHeader (SerializeMessageHeader h) = h` on either host byte order:
direction, failure flag, type, message id and payload length are all
recovered. -/
theorem parse_serialize_header_roundtrip (hostBig : Bool)
    (h : OrchestrationMessageHeader)
    (htype : h.MessageType < 64) (hid : h.MessageId < 256)
    (hlen : h.MessagePayloadLength < 65536) :
    ParseMessageHeader hostBig (SerializeMessageHeader hostBig h) = .ok h := by
  obtain ⟨dir, fail, t, mid, len⟩ := h
  simp only at htype hid hlen
  have hmid : mid % 256 = mid := Nat.mod_eq_of_lt hid
  cases dir with
  | Request =>
      obtain ⟨hb128, hb64, hb63⟩ := messageDescByte_extract t htype false fail
      have h128 : messageDescByte t false fail &&& 128 = 0 := hb128.mpr rfl
      cases hostBig <;>
        simp_all [SerializeMessageHeader, ConvertToNetworkPayload16,
          ParseMessageHeader, OrchestrationMessageHeader.mk.injEq] <;>
        omega
  | Response =>
      obtain ⟨hb128, hb64, hb63⟩ := messageDescByte_extract t htype true fail
      have h128 : ¬messageDescByte t true fail &&& 128 = 0 := by simp [hb128]
      cases hostBig <;>
        simp_all [SerializeMessageHeader, ConvertToNetworkPayload16,
          ParseMessageHeader, OrchestrationMessageHeader.mk.injEq] <;>
        omega

/-- Witness for C5 at a concrete header on both host orders. -/
theorem parse_serialize_header_roundtrip_witness :
    (17 < 64 ∧ 7 < 256 ∧ 300 < 65536) ∧
      ParseMessageHeader false
          (SerializeMessageHeader false ⟨Request, false, 17, 7, 300⟩) =
        .ok ⟨Request, false, 17, 7, 300⟩ ∧
      ParseMessageHeader true
          (SerializeMessageHeader true ⟨Response, true, 20, 255, 65535⟩) =
        .ok ⟨Response, true, 20, 255, 65535⟩ :=
  ⟨by decide,
   parse_serialize_header_roundtrip false ⟨Request, false, 17, 7, 300⟩
     (by decide) (by decide) (by decide),
   parse_serialize_header_roundtrip true ⟨Response, true, 20, 255, 65535⟩
     (by decide) (by decide) (by decide)⟩

/-- **C6** — On a little-endian host (`hostBig = false`, the
`std::endian::native != std::endian::big` branch), `ConvertToNetworkPayload`
emits the bytes least-significant first — `[0x01,0x00,0x00,0x00]` for the
value 1, and `[0x01,0x00]` for the 16-bit form — not most-significant first as
the specification requires, contradicting the code's own comment that bytes
2..3 follow "network byte ordering (big endian)"; deserialization on the same
host does recover the value. -/
theorem convertToNetworkPayload_littleEndian_eval :
    ConvertToNetworkPayload32 false 1 = [1, 0, 0, 0] ∧
      ConvertToNetworkPayload32 false 1 ≠ [0, 0, 0, 1] ∧
      ConvertToNetworkPayload16 false 1 = [1, 0] ∧
      ConvertToNetworkPayload32 true 1 = [0, 0, 0, 1] ∧
      DeserializeNetworkUint32 false (ConvertToNetworkPayload32 false 1) = .ok 1 ∧
      DeserializeNetworkUint32 false (ConvertToNetworkPayload32 false 4294967295) =
        .ok 4294967295 ∧
      DeserializeNetworkUint32 false (ConvertToNetworkPayload32 false 2147483648) =
        .ok 2147483648 := by decide

/-! ## Typed payloads and connection callbacks (IConnection.h) -/

/-- `ConnectionResult` (IConnection.h). -/
structure ConnectionResult where
  IsSuccess : Bool
deriving DecidableEq, Repr

/-- `ConnectionIntroPayload` (IConnection.h); strings are byte lists. -/
structure ConnectionIntroPayload where
  VersionMajor : Nat
  VersionMinor : Nat
  VersionRevision : Nat
  RelayLayer : Nat
  RegionCode : List Nat
  Hostname : List Nat
deriving DecidableEq, Repr

/-- `ConnectionOutroPayload` (IConnection.h). -/
structure ConnectionOutroPayload where
  DisconnectReason : List Nat
deriving DecidableEq, Repr

/-- `ConnectionNodeStatePayload` (IConnection.h). -/
structure ConnectionNodeStatePayload where
  CurrentLoad : Nat
  MaximumLoad : Nat
deriving DecidableEq, Repr

/-- `ConnectionSubscriptionPayload` (IConnection.h). -/
structure ConnectionSubscriptionPayload where
  IsSubscribe : Bool
  ChannelId : Nat
  StreamKey : List Nat
deriving DecidableEq, Repr

/-- `ConnectionPublishPayload` (IConnection.h). -/
structure ConnectionPublishPayload where
  IsPublish : Bool
  ChannelId : Nat
  StreamId : Nat
deriving DecidableEq, Repr

/-- `ConnectionRelayPayload` (IConnection.h). -/
structure ConnectionRelayPayload where
  IsStartRelay : Bool
  ChannelId : Nat
  StreamId : Nat
  TargetHostname : List Nat
  StreamKey : List Nat
deriving DecidableEq, Repr

/-- The upper-layer callbacks an `FtlConnection` dispatches into (the
`SetOn...` setters of IConnection.h).  The orchestrator registers all seven,
so they are modelled as total functions. -/
structure ConnectionCallbacks where
  onIntro : ConnectionIntroPayload → ConnectionResult
  onOutro : ConnectionOutroPayload → ConnectionResult
  onNodeState : ConnectionNodeStatePayload → ConnectionResult
  onChannelSubscription : ConnectionSubscriptionPayload → ConnectionResult
  onStreamPublish : ConnectionPublishPayload → ConnectionResult
  onStreamRelay : ConnectionRelayPayload → ConnectionResult

/-- A record of one upper-layer callback invocation made while processing a
message. -/
inductive CallbackCall where
  | intro (p : ConnectionIntroPayload)
  | outro (p : ConnectionOutroPayload)
  | nodeState (p : ConnectionNodeStatePayload)
  | channelSubscription (p : ConnectionSubscriptionPayload)
  | streamPublish (p : ConnectionPublishPayload)
  | streamRelay (p : ConnectionRelayPayload)
deriving DecidableEq, Repr

/-- A message handed to `sendMessage` (header plus payload bytes); the
payload-length field and serialization are applied downstream. -/
structure SentMessage where
  header : OrchestrationMessageHeader
  payload : List Nat
deriving DecidableEq, Repr

/-- What one `process*Message` call did: the messages it sent and the
upper-layer callbacks it invoked, in order. -/
structure ProcessOutput where
  sent : List SentMessage
  callbacks : List CallbackCall
deriving DecidableEq, Repr

/-! ## FtlConnection message processing (FtlConnection.h:543-877) -/

/-- The region-code length field of an Intro payload: bytes 4..5 in host
byte order (FtlConnection.h:591-592). Defined for payloads of length ≥ 6. -/
def introRegionCodeLength (hostBig : Bool) (payload : List Nat) : Nat :=
  match DeserializeNetworkUint16 hostBig ((payload.drop 4).take 2) with
  | .ok v => v
  | .error _ => 0

/-- The `ConnectionIntroPayload` extracted by `processIntroMessage`
(FtlConnection.h:616-629). -/
def parseIntroPayload (hostBig : Bool) (payload : List Nat) : ConnectionIntroPayload :=
  let regionCodeLength := introRegionCodeLength hostBig payload
  { VersionMajor := payload.getD 0 0
    VersionMinor := payload.getD 1 0
    VersionRevision := payload.getD 2 0
    RelayLayer := payload.getD 3 0
    RegionCode := (payload.drop 6).take regionCodeLength
    Hostname := payload.drop (6 + regionCodeLength) }

/-- `FtlConnection::processIntroMessage` (FtlConnection.h:581-651): throws if
the payload is under 6 bytes; replies with a failure response (same message
id, empty body) without invoking the callback when the region-code length runs
past the payload; otherwise invokes `onIntro` and replies with
`failure = !result.IsSuccess`. -/
def processIntroMessage (hostBig : Bool) (cbs : ConnectionCallbacks)
    (header : OrchestrationMessageHeader) (payload : List Nat) :
    Except String ProcessOutput :=
  if payload.length < 6 then
    .error "Intro payload is too small."
  else
    match DeserializeNetworkUint16 hostBig ((payload.drop 4).take 2) with
    | .error e => .error e
    | .ok regionCodeLength =>
        if payload.length < regionCodeLength + 6 then
          .ok { sent := [⟨⟨Response, true, header.MessageType, header.MessageId, 0⟩, []⟩]
                callbacks := [] }
        else
          let introPayload := parseIntroPayload hostBig payload
          let result := cbs.onIntro introPayload
          .ok { sent := [⟨⟨Response, !result.IsSuccess, 0, header.MessageId, 0⟩, []⟩]
                callbacks := [.intro introPayload] }

/-- `FtlConnection::processOutroMessage` (FtlConnection.h:656-683): invokes
`onOutro` (discarding its result) and always replies with `failure = false`. -/
def processOutroMessage (cbs : ConnectionCallbacks)
    (header : OrchestrationMessageHeader) (payload : List Nat) :
    Except String ProcessOutput :=
  let outroPayload : ConnectionOutroPayload := ⟨payload⟩
  let _ := cbs.onOutro outroPayload
  .ok { sent := [⟨⟨Response, false, 1, header.MessageId, 0⟩, []⟩]
        callbacks := [.outro outroPayload] }

/-- `FtlConnection::processNodeStateMessage` (FtlConnection.h:688-733):
replies with a failure response when the payload is under 8 bytes; otherwise
invokes `onNodeState` (result discarded) and replies with `failure = false`. -/
def processNodeStateMessage (hostBig : Bool) (cbs : ConnectionCallbacks)
    (header : OrchestrationMessageHeader) (payload : List Nat) :
    Except String ProcessOutput :=
  if payload.length < 8 then
    .ok { sent := [⟨⟨Response, true, header.MessageType, header.MessageId, 0⟩, []⟩]
          callbacks := [] }
  else
    match DeserializeNetworkUint32 hostBig (payload.take 4),
        DeserializeNetworkUint32 hostBig ((payload.drop 4).take 4) with
    | .ok currentLoad, .ok maximumLoad =>
        let nodeStatePayload : ConnectionNodeStatePayload := ⟨currentLoad, maximumLoad⟩
        let _ := cbs.onNodeState nodeStatePayload
        .ok { sent := [⟨⟨Response, false, header.MessageType, header.MessageId, 0⟩, []⟩]
              callbacks := [.nodeState nodeStatePayload] }
    | .error e, _ => .error e
    | _, .error e => .error e

/-- The `ConnectionSubscriptionPayload` extracted by
`processChannelSubscriptionMessage` (FtlConnection.h:748-754). -/
def parseSubscriptionPayload (hostBig : Bool) (payload : List Nat) :
    ConnectionSubscriptionPayload :=
  { IsSubscribe := payload.getD 0 0 == 1
    ChannelId :=
      match DeserializeNetworkUint32 hostBig ((payload.drop 1).take 4) with
      | .ok v => v
      | .error _ => 0
    StreamKey := payload.drop 5 }

/-- `FtlConnection::processChannelSubscriptionMessage`
(FtlConnection.h:738-772): throws if the payload is under 5 bytes; otherwise
invokes `onChannelSubscription` (result discarded) and always replies with
`failure = false`. -/
def processChannelSubscriptionMessage (hostBig : Bool) (cbs : ConnectionCallbacks)
    (header : OrchestrationMessageHeader) (payload : List Nat) :
    Except String ProcessOutput :=
  if payload.length < 5 then
    .error "Subscription payload is too small."
  else
    let subPayload := parseSubscriptionPayload hostBig payload
    let _ := cbs.onChannelSubscription subPayload
    .ok { sent := [⟨⟨Response, false, 16, header.MessageId, 0⟩, []⟩]
          callbacks := [.channelSubscription subPayload] }

/-- The `ConnectionPublishPayload` extracted by `processStreamPublishMessage`
(FtlConnection.h:786-791). -/
def parsePublishPayload (hostBig : Bool) (payload : List Nat) :
    ConnectionPublishPayload :=
  { IsPublish := payload.getD 0 0 == 1
    ChannelId :=
      match DeserializeNetworkUint32 hostBig ((payload.drop 1).take 4) with
      | .ok v => v
      | .error _ => 0
    StreamId :=
      match DeserializeNetworkUint32 hostBig ((payload.drop 5).take 4) with
      | .ok v => v
      | .error _ => 0 }

/-- `FtlConnection::processStreamPublishMessage` (FtlConnection.h:777-809):
throws if the payload is under 9 bytes; otherwise invokes `onStreamPublish`
(result discarded) and always replies with `failure = false`. -/
def processStreamPublishMessage (hostBig : Bool) (cbs : ConnectionCallbacks)
    (header : OrchestrationMessageHeader) (payload : List Nat) :
    Except String ProcessOutput :=
  if payload.length < 9 then
    .error "Stream publish payload is too small."
  else
    let publishPayload := parsePublishPayload hostBig payload
    let _ := cbs.onStreamPublish publishPayload
    .ok { sent := [⟨⟨Response, false, 17, header.MessageId, 0⟩, []⟩]
          callbacks := [.streamPublish publishPayload] }

/-- The hostname length field of a StreamRelay payload: bytes 9..10 in host
byte order (FtlConnection.h:824-825). Defined for payloads of length ≥ 11. -/
def relayHostnameLength (hostBig : Bool) (payload : List Nat) : Nat :=
  match DeserializeNetworkUint16 hostBig ((payload.drop 9).take 2) with
  | .ok v => v
  | .error _ => 0

/-- The `ConnectionRelayPayload` extracted by `processStreamRelayMessage`
(FtlConnection.h:849-859).  Note the source quirk: `StreamKey` is read from
byte offset 11 to the end, overlapping the hostname. -/
def parseRelayPayload (hostBig : Bool) (payload : List Nat) : ConnectionRelayPayload :=
  let hostnameLength := relayHostnameLength hostBig payload
  { IsStartRelay := payload.getD 0 0 == 1
    ChannelId :=
      match DeserializeNetworkUint32 hostBig ((payload.drop 1).take 4) with
      | .ok v => v
      | .error _ => 0
    StreamId :=
      match DeserializeNetworkUint32 hostBig ((payload.drop 5).take 4) with
      | .ok v => v
      | .error _ => 0
    TargetHostname := (payload.drop 11).take hostnameLength
    StreamKey := payload.drop 11 }

/-- `FtlConnection::processStreamRelayMessage` (FtlConnection.h:814-877):
throws if the payload is under 11 bytes; replies with a failure response (same
message id, empty body) without invoking the callback when the hostname length
runs past the payload; otherwise invokes `onStreamRelay` (result discarded)
and replies with `failure = false`. -/
def processStreamRelayMessage (hostBig : Bool) (cbs : ConnectionCallbacks)
    (header : OrchestrationMessageHeader) (payload : List Nat) :
    Except String ProcessOutput :=
  if payload.length < 11 then
    .error "Stream relay payload is too small."
  else
    match DeserializeNetworkUint16 hostBig ((payload.drop 9).take 2) with
    | .error e => .error e
    | .ok hostnameLength =>
        if payload.length < hostnameLength + 11 then
          .ok { sent := [⟨⟨Response, true, 20, header.MessageId, 0⟩, []⟩]
                callbacks := [] }
        else
          let relayPayload := parseRelayPayload hostBig payload
          let _ := cbs.onStreamRelay relayPayload
          .ok { sent := [⟨⟨Response, false, 20, header.MessageId, 0⟩, []⟩]
                callbacks := [.streamRelay relayPayload] }

/-- `FtlConnection::processMessage` (FtlConnection.h:543-576): responses are
consumed without processing; requests are dispatched on the message type;
unknown types are silently ignored. -/
def processMessage (hostBig : Bool) (cbs : ConnectionCallbacks)
    (header : OrchestrationMessageHeader) (payload : List Nat) :
    Except String ProcessOutput :=
  if header.MessageDirection = Response then
    .ok { sent := [], callbacks := [] }
  else
    match header.MessageType with
    | 0 => processIntroMessage hostBig cbs header payload
    | 1 => processOutroMessage cbs header payload
    | 2 => processNodeStateMessage hostBig cbs header payload
    | 16 => processChannelSubscriptionMessage hostBig cbs header payload
    | 17 => processStreamPublishMessage hostBig cbs header payload
    | 20 => processStreamRelayMessage hostBig cbs header payload
    | _ => .ok { sent := [], callbacks := [] }

/-- A 2-byte slice always deserializes successfully. -/
theorem deserialize16_ok (hostBig : Bool) (bytes : List Nat)
    (h : bytes.length = 2) :
    ∃ v, DeserializeNetworkUint16 hostBig bytes = .ok v := by
  match bytes, h with
  | [b0, b1], _ => cases hostBig <;> exact ⟨_, rfl⟩

/-- A 4-byte slice always deserializes successfully. -/
theorem deserialize32_ok (hostBig : Bool) (bytes : List Nat)
    (h : bytes.length = 4) :
    ∃ v, DeserializeNetworkUint32 hostBig bytes = .ok v := by
  match bytes, h with
  | [b0, b1, b2, b3], _ => cases hostBig <;> exact ⟨_, rfl⟩

/-- Well-formedness of an inbound request payload: precisely the checks the
corresponding `process*Message` handler performs before invoking the
upper-layer callback (FtlConnection.h:585-595, 692, 742, 781, 818-828).
Unknown message types are not well-formed requests. -/
def WellFormedRequest (hostBig : Bool) (msgType : Nat) (payload : List Nat) : Prop :=
  if msgType = 0 then
    6 ≤ payload.length ∧ introRegionCodeLength hostBig payload + 6 ≤ payload.length
  else if msgType = 1 then True
  else if msgType = 2 then 8 ≤ payload.length
  else if msgType = 16 then 5 ≤ payload.length
  else if msgType = 17 then 9 ≤ payload.length
  else if msgType = 20 then
    11 ≤ payload.length ∧ relayHostnameLength hostBig payload + 11 ≤ payload.length
  else False

instance (hostBig : Bool) (msgType : Nat) (payload : List Nat) :
    Decidable (WellFormedRequest hostBig msgType payload) := by
  unfold WellFormedRequest
  infer_instance

/-- **C3 (amended)** — For every inbound well-formed request of a known
message type, the connection emits exactly one response frame whose message id
equals the request's, whose direction is `Response`, and whose payload is
empty; however only for `Intro` requests does the failure flag equal
`!IsSuccess` of the upper callback's result — for `Outro`, `NodeState`,
`ChannelSubscription`, `StreamPublish` and `StreamRelay` requests the handlers
discard the callback result and always send `failure = false`
(FtlConnection.h:677, 727, 766, 802, 871). -/
theorem request_response_pairing (hostBig : Bool) (cbs : ConnectionCallbacks)
    (header : OrchestrationMessageHeader) (payload : List Nat)
    (hdir : header.MessageDirection = Request)
    (hknown : header.MessageType ∈ [0, 1, 2, 16, 17, 20])
    (hwf : WellFormedRequest hostBig header.MessageType payload) :
    ∃ calls, processMessage hostBig cbs header payload =
      .ok ⟨[⟨⟨Response,
              if header.MessageType = 0 then
                !(cbs.onIntro (parseIntroPayload hostBig payload)).IsSuccess
              else false,
              header.MessageType, header.MessageId, 0⟩, []⟩], calls⟩ := by
  rcases header with ⟨dir, fl, t, mid, plen⟩
  simp only at hdir hknown hwf ⊢
  subst hdir
  simp only [List.mem_cons, List.not_mem_nil, or_false] at hknown
  rcases hknown with rfl | rfl | rfl | rfl | rfl | rfl
  · -- Intro
    obtain ⟨h6, hrc⟩ := hwf
    obtain ⟨v, hv⟩ := deserialize16_ok hostBig ((payload.drop 4).take 2)
      (by simp only [List.length_take, List.length_drop]; omega)
    have hrcv : introRegionCodeLength hostBig payload = v := by
      simp [introRegionCodeLength, hv]
    rw [hrcv] at hrc
    refine ⟨[.intro (parseIntroPayload hostBig payload)], ?_⟩
    simp [processMessage, processIntroMessage, hv, Nat.not_lt.mpr h6,
      Nat.not_lt.mpr hrc]
  · -- Outro
    exact ⟨[.outro ⟨payload⟩], by simp [processMessage, processOutroMessage]⟩
  · -- NodeState
    have h8 : 8 ≤ payload.length := hwf
    obtain ⟨v1, hv1⟩ := deserialize32_ok hostBig (payload.take 4)
      (by simp only [List.length_take]; omega)
    obtain ⟨v2, hv2⟩ := deserialize32_ok hostBig ((payload.drop 4).take 4)
      (by simp only [List.length_take, List.length_drop]; omega)
    refine ⟨[.nodeState ⟨v1, v2⟩], ?_⟩
    simp [processMessage, processNodeStateMessage, hv1, hv2, Nat.not_lt.mpr h8]
  · -- ChannelSubscription
    refine ⟨[.channelSubscription (parseSubscriptionPayload hostBig payload)], ?_⟩
    simp [processMessage, processChannelSubscriptionMessage, Nat.not_lt.mpr hwf]
  · -- StreamPublish
    refine ⟨[.streamPublish (parsePublishPayload hostBig payload)], ?_⟩
    simp [processMessage, processStreamPublishMessage, Nat.not_lt.mpr hwf]
  · -- StreamRelay
    obtain ⟨h11, hhn⟩ := hwf
    obtain ⟨v, hv⟩ := deserialize16_ok hostBig ((payload.drop 9).take 2)
      (by simp only [List.length_take, List.length_drop]; omega)
    have hhnv : relayHostnameLength hostBig payload = v := by
      simp [relayHostnameLength, hv]
    rw [hhnv] at hhn
    refine ⟨[.streamRelay (parseRelayPayload hostBig payload)], ?_⟩
    simp [processMessage, processStreamRelayMessage, hv, Nat.not_lt.mpr h11,
      Nat.not_lt.mpr hhn]

/-- Callbacks that report failure for every event (a recording upper layer
whose `ConnectionResult.IsSuccess` is `false`). -/
def alwaysFailCallbacks : ConnectionCallbacks :=
  ⟨fun _ => ⟨false⟩, fun _ => ⟨false⟩, fun _ => ⟨false⟩,
   fun _ => ⟨false⟩, fun _ => ⟨false⟩, fun _ => ⟨false⟩⟩

/-- Counterexample to C3 as stated: a well-formed `ChannelSubscription`
request whose upper callback returns `IsSuccess = false` is still answered
with `failure = false` — the response failure flag does not equal
`not IsSuccess` for non-Intro message types. -/
theorem request_response_pairing_cex :
    processMessage false alwaysFailCallbacks ⟨Request, false, 16, 7, 5⟩ [1, 5, 0, 0, 0] =
      .ok ⟨[⟨⟨Response, false, 16, 7, 0⟩, []⟩], [.channelSubscription ⟨true, 5, []⟩]⟩ ∧
    (alwaysFailCallbacks.onChannelSubscription ⟨true, 5, []⟩).IsSuccess = false ∧
    ¬((⟨⟨Response, false, 16, 7, 0⟩, []⟩ : SentMessage).header.MessageFailure =
        !(alwaysFailCallbacks.onChannelSubscription ⟨true, 5, []⟩).IsSuccess) := by
  decide

/-- Witness for C3 (amended) at a concrete `StreamPublish` request. -/
theorem request_response_pairing_witness :
    ((⟨Request, false, 17, 9, 9⟩ : OrchestrationMessageHeader).MessageDirection = Request ∧
      (17 : Nat) ∈ [0, 1, 2, 16, 17, 20] ∧
      WellFormedRequest false 17 [1, 5, 0, 0, 0, 6, 0, 0, 0]) ∧
    ∃ calls,
      processMessage false alwaysFailCallbacks ⟨Request, false, 17, 9, 9⟩
          [1, 5, 0, 0, 0, 6, 0, 0, 0] =
        .ok ⟨[⟨⟨Response,
                if (17 : Nat) = 0 then
                  !(alwaysFailCallbacks.onIntro
                      (parseIntroPayload false [1, 5, 0, 0, 0, 6, 0, 0, 0])).IsSuccess
                else false,
                17, 9, 0⟩, []⟩], calls⟩ :=
  ⟨⟨rfl, by decide, by decide⟩,
   request_response_pairing false alwaysFailCallbacks ⟨Request, false, 17, 9, 9⟩
     [1, 5, 0, 0, 0, 6, 0, 0, 0] rfl (by decide) (by decide)⟩

/-- **C8** — For every inbound `Intro` or `StreamRelay` request whose embedded
length prefix (region-code length at offset 4, or hostname length at offset 9)
would run past the end of the payload, the handler emits exactly one failure
response with the same message id, `failure = true` and an empty body, and
invokes no upper-layer callback; it returns normally (no exception is thrown,
nothing closes the connection). -/
theorem oversize_length_failure_response :
    (∀ (hostBig : Bool) (cbs : ConnectionCallbacks)
        (header : OrchestrationMessageHeader) (payload : List Nat),
      header.MessageDirection = Request → header.MessageType = 0 →
      6 ≤ payload.length →
      payload.length < introRegionCodeLength hostBig payload + 6 →
      processMessage hostBig cbs header payload =
        .ok ⟨[⟨⟨Response, true, header.MessageType, header.MessageId, 0⟩, []⟩], []⟩) ∧
    (∀ (hostBig : Bool) (cbs : ConnectionCallbacks)
        (header : OrchestrationMessageHeader) (payload : List Nat),
      header.MessageDirection = Request → header.MessageType = 20 →
      11 ≤ payload.length →
      payload.length < relayHostnameLength hostBig payload + 11 →
      processMessage hostBig cbs header payload =
        .ok ⟨[⟨⟨Response, true, 20, header.MessageId, 0⟩, []⟩], []⟩) := by
  constructor
  · intro hostBig cbs header payload hdir htype h6 hover
    rcases header with ⟨dir, fl, t, mid, plen⟩
    simp only at hdir htype ⊢
    subst hdir; subst htype
    obtain ⟨v, hv⟩ := deserialize16_ok hostBig ((payload.drop 4).take 2)
      (by simp only [List.length_take, List.length_drop]; omega)
    have hrcv : introRegionCodeLength hostBig payload = v := by
      simp [introRegionCodeLength, hv]
    rw [hrcv] at hover
    simp [processMessage, processIntroMessage, hv, Nat.not_lt.mpr h6, hover]
  · intro hostBig cbs header payload hdir htype h11 hover
    rcases header with ⟨dir, fl, t, mid, plen⟩
    simp only at hdir htype ⊢
    subst hdir; subst htype
    obtain ⟨v, hv⟩ := deserialize16_ok hostBig ((payload.drop 9).take 2)
      (by simp only [List.length_take, List.length_drop]; omega)
    have hhnv : relayHostnameLength hostBig payload = v := by
      simp [relayHostnameLength, hv]
    rw [hhnv] at hover
    simp [processMessage, processStreamRelayMessage, hv, Nat.not_lt.mpr h11, hover]

/-- Witness for C8: an Intro whose region-code length (50) and a StreamRelay
whose hostname length (50) run past their payloads. -/
theorem oversize_length_failure_response_witness :
    ((6 : Nat) ≤ 6 ∧ (6 : Nat) < introRegionCodeLength false [0, 0, 0, 0, 50, 0] + 6 ∧
      (11 : Nat) ≤ 11 ∧
      (11 : Nat) < relayHostnameLength false [1, 0, 0, 0, 5, 0, 0, 0, 6, 50, 0] + 11) ∧
    processMessage false alwaysFailCallbacks ⟨Request, false, 0, 3, 6⟩
        [0, 0, 0, 0, 50, 0] =
      .ok ⟨[⟨⟨Response, true, 0, 3, 0⟩, []⟩], []⟩ ∧
    processMessage false alwaysFailCallbacks ⟨Request, false, 20, 4, 11⟩
        [1, 0, 0, 0, 5, 0, 0, 0, 6, 50, 0] =
      .ok ⟨[⟨⟨Response, true, 20, 4, 0⟩, []⟩], []⟩ :=
  ⟨by decide,
   oversize_length_failure_response.1 false alwaysFailCallbacks
     ⟨Request, false, 0, 3, 6⟩ [0, 0, 0, 0, 50, 0] rfl rfl (by decide) (by decide),
   oversize_length_failure_response.2 false alwaysFailCallbacks
     ⟨Request, false, 20, 4, 11⟩ [1, 0, 0, 0, 5, 0, 0, 0, 6, 50, 0] rfl rfl
     (by decide) (by decide)⟩

/-! ## FtlConnection framing state machine (FtlConnection.h:487-525) -/

/-- The per-connection read state: the accumulated `transportReadBuffer` and
the header parsed but not yet matched with a full payload. -/
structure ConnReadState where
  transportReadBuffer : List Nat
  parsedTransportMessageHeader : Option OrchestrationMessageHeader
deriving DecidableEq, Repr

/-- The payload-completion step of `onTransportBytesReceived`
(FtlConnection.h:510-524): if the buffer holds the full payload, extract it,
dispatch one message, drop the consumed bytes and reset the parsed header;
otherwise keep waiting.  The returned list holds the messages handed to
`processMessage`. -/
def dispatchMessageIfComplete (buf : List Nat) (h : OrchestrationMessageHeader) :
    ConnReadState × List (OrchestrationMessageHeader × List Nat) :=
  if h.MessagePayloadLength ≤ buf.length - 4 then
    (⟨buf.drop (4 + h.MessagePayloadLength), none⟩,
     [(h, (buf.drop 4).take h.MessagePayloadLength)])
  else
    (⟨buf, some h⟩, [])

/-- `FtlConnection::onTransportBytesReceived` (FtlConnection.h:487-525):
append the delivered bytes; if no header is parsed yet, parse one once 4 bytes
are available (returning early otherwise); then dispatch at most one complete
message. -/
def onTransportBytesReceived (hostBig : Bool) (st : ConnReadState) (bytes : List Nat) :
    ConnReadState × List (OrchestrationMessageHeader × List Nat) :=
  let buf := st.transportReadBuffer ++ bytes
  match st.parsedTransportMessageHeader with
  | some h => dispatchMessageIfComplete buf h
  | none =>
      if 4 ≤ buf.length then
        match ParseMessageHeader hostBig buf with
        | .ok parsedHeader => dispatchMessageIfComplete buf parsedHeader
        | .error _ => (⟨buf, none⟩, [])
      else
        (⟨buf, none⟩, [])

/-- **C10** — Each invocation of the bytes-received handler dispatches at most
one complete message.  If nothing is dispatched the whole buffer (old bytes
plus the new delivery) is retained; if one message is dispatched, its payload
is the first message's payload and only that message's `4 + payloadLength`
bytes are consumed — every remaining complete message stays in the buffer, to
be dispatched only when `onTransportBytesReceived` runs again on a subsequent
delivery. -/
theorem at_most_one_dispatch_per_delivery (hostBig : Bool) (st : ConnReadState)
    (bytes : List Nat) :
    (onTransportBytesReceived hostBig st bytes).2.length ≤ 1 ∧
    ((onTransportBytesReceived hostBig st bytes).2 = [] →
      (onTransportBytesReceived hostBig st bytes).1.transportReadBuffer =
        st.transportReadBuffer ++ bytes) ∧
    (∀ h pl, (onTransportBytesReceived hostBig st bytes).2 = [(h, pl)] →
      pl = ((st.transportReadBuffer ++ bytes).drop 4).take h.MessagePayloadLength ∧
      (onTransportBytesReceived hostBig st bytes).1.transportReadBuffer =
        (st.transportReadBuffer ++ bytes).drop (4 + h.MessagePayloadLength) ∧
      (onTransportBytesReceived hostBig st bytes).1.parsedTransportMessageHeader =
        none) := by
  unfold onTransportBytesReceived dispatchMessageIfComplete
  rcases st with ⟨buf0, hdr⟩
  cases hdr with
  | some h =>
      simp only
      split
      · refine ⟨by simp, by simp, ?_⟩
        intro h2 pl heq
        simp only [List.cons.injEq, Prod.mk.injEq] at heq
        obtain ⟨⟨rfl, rfl⟩, -⟩ := heq
        exact ⟨rfl, rfl, rfl⟩
      · exact ⟨by simp, fun _ => rfl, fun h2 pl heq => by simp at heq⟩
  | none =>
      simp only
      split
      · split
        · split
          · refine ⟨by simp, by simp, ?_⟩
            intro h2 pl heq
            simp only [List.cons.injEq, Prod.mk.injEq] at heq
            obtain ⟨⟨rfl, rfl⟩, -⟩ := heq
            exact ⟨rfl, rfl, rfl⟩
          · exact ⟨by simp, fun _ => rfl, fun h2 pl heq => by simp at heq⟩
        · exact ⟨by simp, fun _ => rfl, fun h2 pl heq => by simp at heq⟩
      · exact ⟨by simp, fun _ => rfl, fun h2 pl heq => by simp at heq⟩

/-! ## Association lists: the `std::map`s of the stores

Maps built by `aset`/`aerase` from `[]` keep their keys unique, matching
`std::map`; `aerase` removes every entry with the key, which agrees with
`std::map::erase` on unique-key maps. -/

def alookup {α : Type} : List (Nat × α) → Nat → Option α
  | [], _ => none
  | (k, v) :: rest, key => if k = key then some v else alookup rest key

def aset {α : Type} : List (Nat × α) → Nat → α → List (Nat × α)
  | [], key, v => [(key, v)]
  | (k, w) :: rest, key, v =>
      if k = key then (k, v) :: rest else (k, w) :: aset rest key v

def aerase {α : Type} : List (Nat × α) → Nat → List (Nat × α)
  | [], _ => []
  | (k, w) :: rest, key =>
      if k = key then aerase rest key else (k, w) :: aerase rest key

theorem alookup_aset_self {α : Type} (l : List (Nat × α)) (k : Nat) (v : α) :
    alookup (aset l k v) k = some v := by
  induction l with
  | nil => simp [aset, alookup]
  | cons p rest ih =>
      obtain ⟨k1, w⟩ := p
      by_cases h : k1 = k <;> simp [aset, alookup, h, ih]

theorem alookup_aset_ne {α : Type} (l : List (Nat × α)) (k k' : Nat) (v : α)
    (h : k' ≠ k) :
    alookup (aset l k v) k' = alookup l k' := by
  induction l with
  | nil =>
      simp only [aset, alookup]
      rw [if_neg (fun hh => h hh.symm)]
  | cons p rest ih =>
      obtain ⟨k1, w⟩ := p
      by_cases h1 : k1 = k
      · subst h1
        simp only [aset, if_pos rfl, alookup]
        rw [if_neg (fun hh => h hh.symm), if_neg (fun hh => h hh.symm)]
      · simp only [aset, if_neg h1, alookup]
        by_cases h2 : k1 = k' <;> simp [h2, ih]

theorem alookup_aerase_self {α : Type} (l : List (Nat × α)) (k : Nat) :
    alookup (aerase l k) k = none := by
  induction l with
  | nil => simp [aerase, alookup]
  | cons p rest ih =>
      obtain ⟨k1, w⟩ := p
      by_cases h : k1 = k <;> simp [aerase, alookup, h, ih]

theorem alookup_aerase_ne {α : Type} (l : List (Nat × α)) (k k' : Nat)
    (h : k' ≠ k) :
    alookup (aerase l k) k' = alookup l k' := by
  induction l with
  | nil => simp [aerase]
  | cons p rest ih =>
      obtain ⟨k1, w⟩ := p
      simp only [aerase, alookup]
      by_cases h1 : k1 = k
      · rw [if_pos h1, ih]
        subst h1
        rw [if_neg (fun hh => h hh.symm)]
      · rw [if_neg h1]
        simp only [alookup]
        by_cases h2 : k1 = k' <;> simp [h2, ih]

/-! ## Stream and subscription entities (Stream.h, ChannelSubscription.h) -/

/-- `Stream<TConnection>` (Stream.h): the ingest connection is a connection
id. -/
structure Stream where
  IngestConnection : Nat
  ChannelId : Nat
  StreamId : Nat
deriving DecidableEq, Repr

/-- `ChannelSubscription<TConnection>` (ChannelSubscription.h). -/
structure ChannelSubscription where
  SubscribedConnection : Nat
  ChannelId : Nat
  StreamKey : List Nat
deriving DecidableEq, Repr

/-! ## StreamStore (src/src/StreamStore.h) -/

/-- `StreamStore<TConnection>`: streams indexed by channel id and by ingest
connection. -/
structure StreamStore where
  streamByChannelId : List (Nat × Stream)
  streamsByIngestConnection : List (Nat × List Stream)
deriving DecidableEq, Repr

/-- `StreamStore::AddStream` (StreamStore.h:35-53): throws on a duplicate
channel id (before any mutation); otherwise records the stream in both
indices (creating the per-connection list on demand, then `push_back`). -/
def AddStream (store : StreamStore) (stream : Stream) : Except String StreamStore :=
  let channelId := stream.ChannelId
  if (alookup store.streamByChannelId channelId).isSome then
    .error "Found Stream with duplicate channel id when attempting to add new Stream to StreamStore!"
  else
    let prevList := (alookup store.streamsByIngestConnection stream.IngestConnection).getD []
    .ok ⟨aset store.streamByChannelId channelId stream,
         aset store.streamsByIngestConnection stream.IngestConnection
           (prevList ++ [stream])⟩

/-- `StreamStore::RemoveStream` (StreamStore.h:61-94): if the channel id is
present, erase the by-channel entry, then remove from the origin's list every
stream matching both ids (collapsing an empty list); the non-fatal "HACK"
branch covers a missing by-connection entry (the by-channel entry is already
erased at that point). -/
def RemoveStream (store : StreamStore) (channelId streamId : Nat) :
    StreamStore × Option Stream :=
  match alookup store.streamByChannelId channelId with
  | none => (store, none)
  | some returnStream =>
      let byChannel := aerase store.streamByChannelId channelId
      match alookup store.streamsByIngestConnection returnStream.IngestConnection with
      | none => (⟨byChannel, store.streamsByIngestConnection⟩, none)
      | some streamList =>
          let newList := streamList.filter
            (fun s => !(s.ChannelId == channelId && s.StreamId == streamId))
          let byConn :=
            if newList.isEmpty then
              aerase store.streamsByIngestConnection returnStream.IngestConnection
            else
              aset store.streamsByIngestConnection returnStream.IngestConnection newList
          (⟨byChannel, byConn⟩, some returnStream)

/-- `StreamStore::GetStreamByChannelId` (StreamStore.h:101-109). -/
def GetStreamByChannelId (store : StreamStore) (channelId : Nat) : Option Stream :=
  alookup store.streamByChannelId channelId

/-- `StreamStore::RemoveAllConnectionStreams` (StreamStore.h:116-141): take
and erase the connection's stream list, then erase the by-channel entry of
each of its streams (the inconsistency check only logs). -/
def RemoveAllConnectionStreams (store : StreamStore) (connection : Nat) :
    StreamStore × Option (List Stream) :=
  match alookup store.streamsByIngestConnection connection with
  | none => (store, none)
  | some streams =>
      (⟨streams.foldl (fun acc s => aerase acc s.ChannelId) store.streamByChannelId,
        aerase store.streamsByIngestConnection connection⟩, some streams)

/-- `StreamStore::Clear` (StreamStore.h:146-151). -/
def StreamStoreClear : StreamStore := ⟨[], []⟩

/-! ## SubscriptionStore (src/src/SubscriptionStore.h) -/

/-- `SubscriptionStore<TConnection>`: subscriptions indexed by subscribing
connection and by channel.  Each index holds a `std::set` of shared pointers;
inserting a freshly allocated subscription always grows the set, modelled by
appending to a list. -/
structure SubscriptionStore where
  subscriptionsByConnection : List (Nat × List ChannelSubscription)
  subscriptionsByChannel : List (Nat × List ChannelSubscription)
deriving DecidableEq, Repr

/-- `SubscriptionStore::AddSubscription` (SubscriptionStore.h:39-67): makes a
fresh subscription object, inserts it into both indices (creating empty sets
on demand) and always returns `true`. -/
def AddSubscription (store : SubscriptionStore) (connection channelId : Nat)
    (streamKey : List Nat) : SubscriptionStore × Bool :=
  let subscription : ChannelSubscription := ⟨connection, channelId, streamKey⟩
  let connSubs := (alookup store.subscriptionsByConnection connection).getD []
  let chanSubs := (alookup store.subscriptionsByChannel channelId).getD []
  (⟨aset store.subscriptionsByConnection connection (connSubs ++ [subscription]),
    aset store.subscriptionsByChannel channelId (chanSubs ++ [subscription])⟩,
   true)

/-- `SubscriptionStore::RemoveSubscription` (SubscriptionStore.h:75-152):
erase from the connection's set every subscription with the channel id, and
from the channel's set every subscription of the connection; the result is
`true` only when both indices existed and both erased something.  Emptied sets
are kept (no key pruning). -/
def RemoveSubscription (store : SubscriptionStore) (connection channelId : Nat) :
    SubscriptionStore × Bool :=
  let connPart :
      List (Nat × List ChannelSubscription) × Bool :=
    match alookup store.subscriptionsByConnection connection with
    | none => (store.subscriptionsByConnection, false)
    | some subs =>
        (aset store.subscriptionsByConnection connection
          (subs.filter (fun sub => !(sub.ChannelId == channelId))),
         subs.any (fun sub => sub.ChannelId == channelId))
  let chanPart :
      List (Nat × List ChannelSubscription) × Bool :=
    match alookup store.subscriptionsByChannel channelId with
    | none => (store.subscriptionsByChannel, false)
    | some subs =>
        (aset store.subscriptionsByChannel channelId
          (subs.filter (fun sub => !(sub.SubscribedConnection == connection))),
         subs.any (fun sub => sub.SubscribedConnection == connection))
  (⟨connPart.1, chanPart.1⟩, connPart.2 && chanPart.2)

/-- `SubscriptionStore::GetSubscriptions(connection)`
(SubscriptionStore.h:159-171). -/
def GetConnectionSubscriptions (store : SubscriptionStore) (connection : Nat) :
    List ChannelSubscription :=
  (alookup store.subscriptionsByConnection connection).getD []

/-- `SubscriptionStore::GetSubscriptions(channelId)`
(SubscriptionStore.h:178-190). -/
def GetChannelSubscriptions (store : SubscriptionStore) (channelId : Nat) :
    List ChannelSubscription :=
  (alookup store.subscriptionsByChannel channelId).getD []

/-- The per-subscription loop of `SubscriptionStore::ClearSubscriptions`
(SubscriptionStore.h:201-214): for each of the connection's subscriptions,
throw if its channel key is missing, otherwise erase that subscription object
from the channel's set (erasing the key when the set empties). -/
def clearSubscriptionsLoop (byChannel : List (Nat × List ChannelSubscription)) :
    List ChannelSubscription →
    Except String (List (Nat × List ChannelSubscription))
  | [] => .ok byChannel
  | sub :: rest =>
      match alookup byChannel sub.ChannelId with
      | none =>
          .error "Subscription Store inconsistency - can not find matching channel for connection subscription."
      | some chanSubs =>
          let newSubs := chanSubs.erase sub
          let byChannel2 :=
            if newSubs.isEmpty then aerase byChannel sub.ChannelId
            else aset byChannel sub.ChannelId newSubs
          clearSubscriptionsLoop byChannel2 rest

/-- `SubscriptionStore::ClearSubscriptions` (SubscriptionStore.h:196-218). -/
def ClearSubscriptions (store : SubscriptionStore) (connection : Nat) :
    Except String SubscriptionStore :=
  match alookup store.subscriptionsByConnection connection with
  | none => .ok store
  | some subs =>
      match clearSubscriptionsLoop store.subscriptionsByChannel subs with
      | .error e => .error e
      | .ok byChannel =>
          .ok ⟨aerase store.subscriptionsByConnection connection, byChannel⟩

/-- `SubscriptionStore::Clear` (SubscriptionStore.h:223-228). -/
def SubscriptionStoreClear : SubscriptionStore := ⟨[], []⟩

/-! ## Orchestrator (src/src/Orchestrator.cpp)

The orchestrator state is its two stores plus the pending and active
connection sets.  Routing commands (`IConnection::SendStreamRelay` calls made
by `openRoute`/`closeRoute`) are returned as a list of `RelayInstruction`s
rather than stored.  Connections are numeric ids and `GetHostname` is
injective on live connections in the modelled scenarios, so an instruction
records the target edge connection id where the code sends
`edgeConnection->GetHostname()`. -/

structure OrchState where
  streamStore : StreamStore
  subscriptions : SubscriptionStore
  pendingConnections : List Nat
  connections : List Nat
deriving DecidableEq, Repr

/-- One `SendStreamRelay(ConnectionRelayPayload{...})` call: `origin` is the
connection the instruction is sent to (`stream.IngestConnection`), and
`TargetEdge` identifies the subscriber whose hostname fills
`TargetHostname`. -/
structure RelayInstruction where
  origin : Nat
  IsStartRelay : Bool
  ChannelId : Nat
  StreamId : Nat
  TargetEdge : Nat
  StreamKey : List Nat
deriving DecidableEq, Repr

/-- `Orchestrator::openRoute` (Orchestrator.cpp:110-125). -/
def openRoute (stream : Stream) (edgeConnection : Nat) (streamKey : List Nat) :
    RelayInstruction :=
  ⟨stream.IngestConnection, true, stream.ChannelId, stream.StreamId,
   edgeConnection, streamKey⟩

/-- `Orchestrator::closeRoute` (Orchestrator.cpp:127-142): like `openRoute`
with `IsStartRelay = false` and an empty stream key. -/
def closeRoute (stream : Stream) (edgeConnection : Nat) : RelayInstruction :=
  ⟨stream.IngestConnection, false, stream.ChannelId, stream.StreamId,
   edgeConnection, []⟩

/-- `Orchestrator::connectionChannelSubscription` (Orchestrator.cpp:304-368),
for a live connection.  Subscribe: add the subscription (failure short-
circuits), then open a route if the channel already has a stream.
Unsubscribe: close a route if the channel has a stream, then remove the
subscription; the result reports whether one was removed. -/
def connectionChannelSubscription (st : OrchState) (connection : Nat)
    (payload : ConnectionSubscriptionPayload) :
    Except String (OrchState × List RelayInstruction × ConnectionResult) :=
  if payload.IsSubscribe then
    let addPair :=
      AddSubscription st.subscriptions connection payload.ChannelId payload.StreamKey
    let st2 := { st with subscriptions := addPair.1 }
    if addPair.2 = false then
      .ok (st2, [], ⟨false⟩)
    else
      match GetStreamByChannelId st2.streamStore payload.ChannelId with
      | some stream =>
          .ok (st2, [openRoute stream connection payload.StreamKey], ⟨addPair.2⟩)
      | none => .ok (st2, [], ⟨addPair.2⟩)
  else
    let relays :=
      match GetStreamByChannelId st.streamStore payload.ChannelId with
      | some stream => [closeRoute stream connection]
      | none => []
    let removePair := RemoveSubscription st.subscriptions connection payload.ChannelId
    .ok ({ st with subscriptions := removePair.1 }, relays, ⟨removePair.2⟩)

/-- `Orchestrator::connectionStreamPublish` (Orchestrator.cpp:370-438), for a
live connection.  Publish: `AddStream` (whose duplicate-channel exception
propagates — the `TODO: Handle existing streams` path), then open a route to
every subscription of the channel.  Unpublish: remove the stream if present;
a missing stream only logs and reports failure. -/
def connectionStreamPublish (st : OrchState) (connection : Nat)
    (payload : ConnectionPublishPayload) :
    Except String (OrchState × List RelayInstruction × ConnectionResult) :=
  if payload.IsPublish then
    let newStream : Stream := ⟨connection, payload.ChannelId, payload.StreamId⟩
    match AddStream st.streamStore newStream with
    | .error e => .error e
    | .ok streamStore2 =>
        let st2 := { st with streamStore := streamStore2 }
        let channelSubs := GetChannelSubscriptions st2.subscriptions payload.ChannelId
        .ok (st2,
          channelSubs.map (fun subscription =>
            openRoute newStream subscription.SubscribedConnection
              subscription.StreamKey),
          ⟨true⟩)
  else
    let removePair := RemoveStream st.streamStore payload.ChannelId payload.StreamId
    .ok ({ st with streamStore := removePair.1 }, [], ⟨removePair.2.isSome⟩)

/-- `Orchestrator::connectionStreamRelay` (Orchestrator.cpp:440-450): the body
of `if (auto strongConnection = connection.lock())` is only a `// TODO`
comment and does not return, so control falls through to
`throw std::runtime_error("Lost reference to active connection!")` even when
the connection is alive: every inbound StreamRelay makes the orchestrator
handler throw, and no state is read or written. -/
def connectionStreamRelay (_st : OrchState) (_connection : Nat)
    (_payload : ConnectionRelayPayload) :
    Except String (OrchState × List RelayInstruction × ConnectionResult) :=
  .error "Lost reference to active connection!"

/-- `Orchestrator::connectionClosed` (Orchestrator.cpp:201-232), for a live
connection with `isStopping` false: close a route for each of the
connection's subscriptions whose channel has a stream, then remove the
connection's streams, clear its subscriptions and drop it from both
connection sets. -/
def connectionClosed (st : OrchState) (connection : Nat) :
    Except String (OrchState × List RelayInstruction) :=
  let relays := (GetConnectionSubscriptions st.subscriptions connection).filterMap
    (fun sub =>
      match GetStreamByChannelId st.streamStore sub.ChannelId with
      | some stream => some (closeRoute stream connection)
      | none => none)
  let streamStore2 := (RemoveAllConnectionStreams st.streamStore connection).1
  match ClearSubscriptions st.subscriptions connection with
  | .error e => .error e
  | .ok subs2 =>
      .ok (⟨streamStore2, subs2,
            st.pendingConnections.filter (fun c => !(c == connection)),
            st.connections.filter (fun c => !(c == connection))⟩,
           relays)

/-- The events of C1: subscribes, unsubscribes, publishes, unpublishes and
connection closures, each attributed to a connection. -/
inductive OrchEvent where
  | subscribe (connection channelId : Nat) (streamKey : List Nat)
  | unsubscribe (connection channelId : Nat)
  | publish (connection channelId streamId : Nat)
  | unpublish (connection channelId streamId : Nat)
  | closed (connection : Nat)
deriving DecidableEq, Repr

/-- Dispatch one event to its Orchestrator handler (the connection layer
builds exactly these payloads: subscribe/unsubscribe with
`IsSubscribe = true/false`, publish/unpublish with `IsPublish =
true/false`). -/
def applyEvent (st : OrchState) : OrchEvent →
    Except String (OrchState × List RelayInstruction)
  | .subscribe c ch k =>
      match connectionChannelSubscription st c ⟨true, ch, k⟩ with
      | .ok (st2, relays, _) => .ok (st2, relays)
      | .error e => .error e
  | .unsubscribe c ch =>
      match connectionChannelSubscription st c ⟨false, ch, []⟩ with
      | .ok (st2, relays, _) => .ok (st2, relays)
      | .error e => .error e
  | .publish c ch sid =>
      match connectionStreamPublish st c ⟨true, ch, sid⟩ with
      | .ok (st2, relays, _) => .ok (st2, relays)
      | .error e => .error e
  | .unpublish c ch sid =>
      match connectionStreamPublish st c ⟨false, ch, sid⟩ with
      | .ok (st2, relays, _) => .ok (st2, relays)
      | .error e => .error e
  | .closed c => connectionClosed st c

/-- Run a sequence of events, accumulating every relay instruction emitted. -/
def runEvents (st : OrchState) : List OrchEvent →
    Except String (OrchState × List RelayInstruction)
  | [] => .ok (st, [])
  | e :: rest =>
      match applyEvent st e with
      | .error err => .error err
      | .ok (st2, relays) =>
          match runEvents st2 rest with
          | .error err => .error err
          | .ok (st3, moreRelays) => .ok (st3, relays ++ moreRelays)

/-- The empty orchestrator: empty stores, no connections. -/
def emptyOrchestrator : OrchState := ⟨⟨[], []⟩, ⟨[], []⟩, [], []⟩

/-- Number of `IsStartRelay = true` instructions emitted for a
(channel, subscriber) pair. -/
def countStart (relays : List RelayInstruction) (channelId edge : Nat) : Nat :=
  (relays.filter (fun r =>
    r.IsStartRelay && r.ChannelId == channelId && r.TargetEdge == edge)).length

/-- Number of `IsStartRelay = false` instructions emitted for a
(channel, subscriber) pair. -/
def countStop (relays : List RelayInstruction) (channelId edge : Nat) : Nat :=
  (relays.filter (fun r =>
    !r.IsStartRelay && r.ChannelId == channelId && r.TargetEdge == edge)).length

/-- Whether the subscriber connection currently holds a subscription for the
channel (via the by-connection index, as `GetSubscribedChannels` reads it). -/
def subscriptionExists (st : OrchState) (connection channelId : Nat) : Bool :=
  (GetConnectionSubscriptions st.subscriptions connection).any
    (fun sub => sub.ChannelId == channelId)

/-- Whether the channel currently has a stream. -/
def streamExists (st : OrchState) (channelId : Nat) : Bool :=
  (GetStreamByChannelId st.streamStore channelId).isSome

/-- A stream and a subscription for the pair currently coexist. -/
def coexist (st : OrchState) (channelId connection : Nat) : Bool :=
  streamExists st channelId && subscriptionExists st connection channelId

/-- **C9** — Contrary to the claim, an inbound StreamRelay request delivered
to the Orchestrator is never acknowledged: `connectionStreamRelay` throws
`"Lost reference to active connection!"` for every state, connection and
payload (the stub's `if` body does not return, so the lost-reference throw is
reached even for a live connection, and the exception propagates out of
`processStreamRelayMessage` before its response is sent).  No orchestrator
state is read or written. -/
theorem inbound_stream_relay_throws (st : OrchState) (connection : Nat)
    (payload : ConnectionRelayPayload) :
    connectionStreamRelay st connection payload =
      .error "Lost reference to active connection!" := rfl

/-- **C4** — A publish for a channel that already has a stream makes
`StreamStore::AddStream` throw before any mutation, and
`connectionStreamPublish` (which has only `TODO: Handle existing streams`)
propagates the exception instead of returning normally: here channel 5
already carries stream ⟨1, 5, 9⟩ and connection 2 publishes (5, 10).  The
prior stream is untouched and no relay instructions are produced, but the
handler does not return a `ConnectionResult`. -/
theorem duplicate_publish_throws :
    AddStream ⟨[(5, ⟨1, 5, 9⟩)], [(1, [⟨1, 5, 9⟩])]⟩ ⟨2, 5, 10⟩ =
      .error "Found Stream with duplicate channel id when attempting to add new Stream to StreamStore!" ∧
    connectionStreamPublish ⟨⟨[(5, ⟨1, 5, 9⟩)], [(1, [⟨1, 5, 9⟩])]⟩, ⟨[], []⟩, [], [1, 2]⟩
        2 ⟨true, 5, 10⟩ =
      .error "Found Stream with duplicate channel id when attempting to add new Stream to StreamStore!" := by
  decide

/-- Counterexample to C2 as stated: subscribing connection 0 to channel 1
first with key `[1]` and then with key `[2]` leaves the store with **two**
subscriptions for the pair (not one), and a publish on channel 1 emits **two**
start-relay instructions (one per key), not a single one carrying the second
key. -/
theorem duplicate_subscription_cex :
    (GetConnectionSubscriptions
        (AddSubscription (AddSubscription SubscriptionStoreClear 0 1 [1]).1 0 1 [2]).1
        0).filter (fun sub => sub.ChannelId == 1) =
      [⟨0, 1, [1]⟩, ⟨0, 1, [2]⟩] ∧
    connectionStreamPublish
        ⟨StreamStoreClear,
         (AddSubscription (AddSubscription SubscriptionStoreClear 0 1 [1]).1 0 1 [2]).1,
         [], []⟩ 3 ⟨true, 1, 4⟩ =
      .ok (⟨⟨[(1, ⟨3, 1, 4⟩)], [(3, [⟨3, 1, 4⟩])]⟩,
            (AddSubscription (AddSubscription SubscriptionStoreClear 0 1 [1]).1 0 1 [2]).1,
            [], []⟩,
           [⟨3, true, 1, 4, 0, [1]⟩, ⟨3, true, 1, 4, 0, [2]⟩],
           ⟨true⟩) := by
  decide

/-- **C2 (amended)** — For every connection `c`, channel `ch` and stream keys
`k1` then `k2`, two `AddSubscription` calls (from an empty store) both return
`true` and leave the store with exactly two subscriptions for the pair
(`k1` first, then `k2`); a later publish on `ch` by origin `o` emits exactly
two start-relay instructions to the origin, the first carrying `k1` and the
second carrying `k2`. -/
theorem duplicate_subscription_behavior (c ch o sid : Nat) (k1 k2 : List Nat) :
    (AddSubscription SubscriptionStoreClear c ch k1).2 = true ∧
    (AddSubscription (AddSubscription SubscriptionStoreClear c ch k1).1 c ch k2).2 = true ∧
    GetConnectionSubscriptions
        (AddSubscription (AddSubscription SubscriptionStoreClear c ch k1).1 c ch k2).1 c =
      [⟨c, ch, k1⟩, ⟨c, ch, k2⟩] ∧
    connectionStreamPublish
        ⟨StreamStoreClear,
         (AddSubscription (AddSubscription SubscriptionStoreClear c ch k1).1 c ch k2).1,
         [], []⟩ o ⟨true, ch, sid⟩ =
      .ok (⟨⟨[(ch, ⟨o, ch, sid⟩)], [(o, [⟨o, ch, sid⟩])]⟩,
            (AddSubscription (AddSubscription SubscriptionStoreClear c ch k1).1 c ch k2).1,
            [], []⟩,
           [⟨o, true, ch, sid, c, k1⟩, ⟨o, true, ch, sid, c, k2⟩],
           ⟨true⟩) := by
  refine ⟨rfl, rfl, ?_, ?_⟩
  · simp [AddSubscription, SubscriptionStoreClear, GetConnectionSubscriptions,
      alookup, aset]
  · simp [AddSubscription, SubscriptionStoreClear, connectionStreamPublish,
      AddStream, StreamStoreClear, GetChannelSubscriptions, GetStreamByChannelId,
      openRoute, alookup, aset]

/-- Counterexample to C7 as stated: from an empty store, `AddStream ⟨0, 1, 5⟩`
followed by `RemoveStream 1 6` (matching channel id, mismatched stream id)
erases the by-channel entry but leaves the stream in the by-ingest-connection
index, so the stream ⟨0, 1, 5⟩ is reachable from the by-ingest index and from
nowhere in the by-channel index. -/
theorem stream_store_consistency_cex :
    AddStream StreamStoreClear ⟨0, 1, 5⟩ = .ok ⟨[(1, ⟨0, 1, 5⟩)], [(0, [⟨0, 1, 5⟩])]⟩ ∧
    RemoveStream ⟨[(1, ⟨0, 1, 5⟩)], [(0, [⟨0, 1, 5⟩])]⟩ 1 6 =
      (⟨[], [(0, [⟨0, 1, 5⟩])]⟩, some ⟨0, 1, 5⟩) ∧
    (RemoveStream ⟨[(1, ⟨0, 1, 5⟩)], [(0, [⟨0, 1, 5⟩])]⟩ 1 6).1.streamByChannelId = [] := by
  decide

/-! ## StreamStore consistency (C7) -/

/-- The strong consistency invariant tying the two `StreamStore` indices
together: every by-channel entry is keyed by its stream's channel and appears
in its origin's list, and every by-origin list is nonempty and contains only
streams of that connection that are also the by-channel entry of their
channel. -/
def StreamStoreInv (ss : StreamStore) : Prop :=
  (∀ ch s, alookup ss.streamByChannelId ch = some s →
     s.ChannelId = ch ∧
     ∃ l, alookup ss.streamsByIngestConnection s.IngestConnection = some l ∧ s ∈ l) ∧
  (∀ c l, alookup ss.streamsByIngestConnection c = some l →
     l ≠ [] ∧ ∀ s ∈ l, s.IngestConnection = c ∧
       alookup ss.streamByChannelId s.ChannelId = some s)

theorem streamStoreInv_empty : StreamStoreInv ⟨[], []⟩ := by
  constructor
  · intro ch s h
    simp [alookup] at h
  · intro c l h
    simp [alookup] at h

/-- A stream is reachable from the by-channel index iff it is reachable from
the by-ingest-connection index. -/
def MembershipAgree (ss : StreamStore) : Prop :=
  ∀ s : Stream,
    (∃ ch, alookup ss.streamByChannelId ch = some s) ↔
    (∃ c l, alookup ss.streamsByIngestConnection c = some l ∧ s ∈ l)

theorem membershipAgree_of_inv (ss : StreamStore) (hinv : StreamStoreInv ss) :
    MembershipAgree ss := by
  obtain ⟨h1, h2⟩ := hinv
  intro s
  constructor
  · rintro ⟨ch, hch⟩
    obtain ⟨-, l, hl, hmem⟩ := h1 ch s hch
    exact ⟨s.IngestConnection, l, hl, hmem⟩
  · rintro ⟨c, l, hl, hmem⟩
    obtain ⟨-, hall⟩ := h2 c l hl
    exact ⟨s.ChannelId, (hall s hmem).2⟩

/-- `AddStream` on an occupied channel throws without mutating. -/
theorem addStream_error (ss : StreamStore) (s : Stream)
    (hsome : (alookup ss.streamByChannelId s.ChannelId).isSome = true) :
    AddStream ss s =
      .error "Found Stream with duplicate channel id when attempting to add new Stream to StreamStore!" := by
  simp [AddStream, hsome]

/-- `AddStream` on a free channel updates both indices. -/
theorem addStream_ok (ss : StreamStore) (s : Stream)
    (hnone : alookup ss.streamByChannelId s.ChannelId = none) :
    AddStream ss s = .ok
      ⟨aset ss.streamByChannelId s.ChannelId s,
       aset ss.streamsByIngestConnection s.IngestConnection
         ((alookup ss.streamsByIngestConnection s.IngestConnection).getD [] ++ [s])⟩ := by
  simp [AddStream, hnone]

theorem addStream_inv (ss : StreamStore) (s : Stream)
    (hinv : StreamStoreInv ss)
    (hnone : alookup ss.streamByChannelId s.ChannelId = none) :
    StreamStoreInv
      ⟨aset ss.streamByChannelId s.ChannelId s,
       aset ss.streamsByIngestConnection s.IngestConnection
         ((alookup ss.streamsByIngestConnection s.IngestConnection).getD [] ++ [s])⟩ := by
  obtain ⟨h1, h2⟩ := hinv
  constructor
  · intro ch s' hch
    by_cases hceq : ch = s.ChannelId
    · subst hceq
      rw [alookup_aset_self] at hch
      cases hch
      refine ⟨rfl, _, alookup_aset_self _ _ _, ?_⟩
      simp
    · rw [alookup_aset_ne _ _ _ _ hceq] at hch
      obtain ⟨hch', l, hl, hmem⟩ := h1 ch s' hch
      by_cases hconn : s'.IngestConnection = s.IngestConnection
      · rw [hconn] at hl ⊢
        rw [hl]
        refine ⟨hch', _, alookup_aset_self _ _ _, ?_⟩
        simp only [Option.getD_some]
        exact List.mem_append_left _ hmem
      · exact ⟨hch', l, by rw [alookup_aset_ne _ _ _ _ hconn]; exact hl, hmem⟩
  · intro c l' hcl
    by_cases hceq : c = s.IngestConnection
    · subst hceq
      rw [alookup_aset_self] at hcl
      cases hcl
      refine ⟨by simp, ?_⟩
      intro s' hmem
      rcases List.mem_append.mp hmem with hmem' | hmem'
      · -- an old stream of this connection
        cases hold : alookup ss.streamsByIngestConnection s.IngestConnection with
        | none => rw [hold] at hmem'; simp at hmem'
        | some l0 =>
            rw [hold] at hmem'
            simp only [Option.getD_some] at hmem'
            obtain ⟨-, hall⟩ := h2 _ l0 hold
            obtain ⟨hconn', hch'⟩ := hall s' hmem'
            refine ⟨hconn', ?_⟩
            have hne : s'.ChannelId ≠ s.ChannelId := by
              intro heq
              rw [heq, hnone] at hch'
              cases hch'
            rw [alookup_aset_ne _ _ _ _ hne]
            exact hch'
      · simp only [List.mem_singleton] at hmem'
        subst hmem'
        exact ⟨rfl, alookup_aset_self _ _ _⟩
    · rw [alookup_aset_ne _ _ _ _ hceq] at hcl
      obtain ⟨hne, hall⟩ := h2 c l' hcl
      refine ⟨hne, ?_⟩
      intro s' hmem
      obtain ⟨hconn', hch'⟩ := hall s' hmem
      refine ⟨hconn', ?_⟩
      have hnech : s'.ChannelId ≠ s.ChannelId := by
        intro heq
        rw [heq, hnone] at hch'
        cases hch'
      rw [alookup_aset_ne _ _ _ _ hnech]
      exact hch'

theorem alookup_foldl_aerase (L : List Stream) (m : List (Nat × Stream)) (ch : Nat) :
    alookup (L.foldl (fun acc s => aerase acc s.ChannelId) m) ch =
      if L.any (fun s => s.ChannelId == ch) then none else alookup m ch := by
  induction L generalizing m with
  | nil => simp
  | cons s L ih =>
      simp only [List.foldl_cons, List.any_cons]
      rw [ih]
      by_cases h : s.ChannelId = ch
      · subst h
        by_cases hL : L.any (fun s' => s'.ChannelId == s.ChannelId) = true <;>
          simp [hL, alookup_aerase_self]
      · have hbeq : (s.ChannelId == ch) = false := by simp [h]
        simp only [hbeq, Bool.false_or]
        by_cases hL : L.any (fun s' => s'.ChannelId == ch) = true <;>
          simp [hL, alookup_aerase_ne _ _ _ (fun hh => h hh.symm)]

/-- The streams kept by `RemoveStream`'s `remove_if` are exactly the origin's
streams other than the removed one, under the invariant and a matching stream
id. -/
theorem removeStream_filter_mem (ss : StreamStore) (channelId streamId : Nat)
    (rs : Stream) (sl : List Stream)
    (hinv : StreamStoreInv ss)
    (hch : alookup ss.streamByChannelId channelId = some rs)
    (hmatch : rs.StreamId = streamId)
    (hsl : alookup ss.streamsByIngestConnection rs.IngestConnection = some sl) :
    ∀ s' ∈ sl,
      (s' ∈ sl.filter (fun s => !(s.ChannelId == channelId && s.StreamId == streamId)) ↔
        s' ≠ rs) := by
  intro s' hmem
  have hrsch : rs.ChannelId = channelId := (hinv.1 channelId rs hch).1
  rw [List.mem_filter]
  constructor
  · rintro ⟨-, hcond⟩ rfl
    simp [hrsch, hmatch] at hcond
  · intro hne
    refine ⟨hmem, ?_⟩
    simp only [Bool.not_eq_eq_eq_not, Bool.not_true, Bool.and_eq_false_imp,
      beq_iff_eq, Bool.not_eq_true]
    intro hcheq
    have := (hinv.2 rs.IngestConnection sl hsl).2 s' hmem
    rw [hcheq, hch] at this
    exact absurd (Option.some_injective _ this.2).symm hne

theorem removeStream_inv (ss : StreamStore) (channelId streamId : Nat)
    (hinv : StreamStoreInv ss)
    (hmatch : ∀ s, alookup ss.streamByChannelId channelId = some s →
      s.StreamId = streamId) :
    StreamStoreInv (RemoveStream ss channelId streamId).1 := by
  obtain ⟨h1, h2⟩ := hinv
  unfold RemoveStream
  cases hch : alookup ss.streamByChannelId channelId with
  | none => exact ⟨h1, h2⟩
  | some rs =>
      have hrsch : rs.ChannelId = channelId := (h1 channelId rs hch).1
      have hrssid : rs.StreamId = streamId := hmatch rs hch
      obtain ⟨-, sl, hsl, hrsmem⟩ := h1 channelId rs hch
      simp only [hsl]
      set newList :=
        sl.filter (fun s => !(s.ChannelId == channelId && s.StreamId == streamId))
        with hnewList
      have hmemIff := removeStream_filter_mem ss channelId streamId rs sl
        ⟨h1, h2⟩ hch hrssid hsl
      have hsubset : ∀ s' ∈ newList, s' ∈ sl := fun s' h => (List.mem_filter.mp h).1
      constructor
      · -- by-channel side of the new store
        intro ch' s' hch'
        by_cases hceq : ch' = channelId
        · subst hceq
          rw [alookup_aerase_self] at hch'
          cases hch'
        · rw [alookup_aerase_ne _ _ _ hceq] at hch'
          obtain ⟨hch'', l, hl, hmem⟩ := h1 ch' s' hch'
          have hne : s' ≠ rs := by
            rintro rfl
            exact hceq (hch''.symm.trans hrsch)
          refine ⟨hch'', ?_⟩
          by_cases hconn : s'.IngestConnection = rs.IngestConnection
          · have hlsl : l = sl := by
              rw [hconn] at hl
              exact Option.some_injective _ (hl.symm.trans hsl)
            subst hlsl
            have hmemNew : s' ∈ newList := (hmemIff s' hmem).mpr hne
            have hnonempty : newList.isEmpty = false := by
              cases hnl : newList with
              | nil => rw [hnl] at hmemNew; cases hmemNew
              | cons a b => simp [hnl]
            rw [hconn, if_neg (by simp [hnonempty])]
            exact ⟨newList, alookup_aset_self _ _ _, hmemNew⟩
          · refine ⟨l, ?_, hmem⟩
            split
            · rw [alookup_aerase_ne _ _ _ hconn]
              exact hl
            · rw [alookup_aset_ne _ _ _ _ hconn]
              exact hl
      · -- by-ingest side of the new store
        intro c l' hcl
        have hchan : ∀ s' ∈ l', s' ∈ sl → s'.IngestConnection = rs.IngestConnection →
            True := fun _ _ _ _ => trivial
        split at hcl
        · -- the origin's list emptied and its key was erased
          have hcne : c ≠ rs.IngestConnection := by
            intro hc
            rw [hc, alookup_aerase_self] at hcl
            cases hcl
          rw [alookup_aerase_ne _ _ _ hcne] at hcl
          obtain ⟨hnil, hall⟩ := h2 c l' hcl
          refine ⟨hnil, ?_⟩
          intro s' hmem
          obtain ⟨hconn', hch'⟩ := hall s' hmem
          have hne : s'.ChannelId ≠ channelId := by
            intro heq
            rw [heq, hch] at hch'
            have : s' = rs := Option.some_injective _ hch'.symm
            rw [this] at hconn'
            exact hcne hconn'.symm
          rw [alookup_aerase_ne _ _ _ hne]
          exact ⟨hconn', hch'⟩
        · -- the origin's list was replaced
          rename_i hnonempty
          by_cases hceq : c = rs.IngestConnection
          · subst hceq
            rw [alookup_aset_self] at hcl
            cases hcl
            refine ⟨by simpa using hnonempty, ?_⟩
            intro s' hmem
            have hmemsl : s' ∈ sl := hsubset s' hmem
            obtain ⟨hconn', hch'⟩ := (h2 _ sl hsl).2 s' hmemsl
            have hne : s' ≠ rs := (hmemIff s' hmemsl).mp hmem
            have hnech : s'.ChannelId ≠ channelId := by
              intro heq
              rw [heq, hch] at hch'
              exact hne (Option.some_injective _ hch').symm
            rw [alookup_aerase_ne _ _ _ hnech]
            exact ⟨hconn', hch'⟩
          · rw [alookup_aset_ne _ _ _ _ hceq] at hcl
            obtain ⟨hnil, hall⟩ := h2 c l' hcl
            refine ⟨hnil, ?_⟩
            intro s' hmem
            obtain ⟨hconn', hch'⟩ := hall s' hmem
            have hnech : s'.ChannelId ≠ channelId := by
              intro heq
              rw [heq, hch] at hch'
              have hsrs : s' = rs := (Option.some_injective _ hch').symm
              rw [hsrs] at hconn'
              exact hceq hconn'.symm
            rw [alookup_aerase_ne _ _ _ hnech]
            exact ⟨hconn', hch'⟩

theorem removeAllConnectionStreams_inv (ss : StreamStore) (c : Nat)
    (hinv : StreamStoreInv ss) :
    StreamStoreInv (RemoveAllConnectionStreams ss c).1 := by
  obtain ⟨h1, h2⟩ := hinv
  unfold RemoveAllConnectionStreams
  cases hcs : alookup ss.streamsByIngestConnection c with
  | none => exact ⟨h1, h2⟩
  | some streams =>
      simp only
      constructor
      · intro ch' s' hch'
        rw [alookup_foldl_aerase] at hch'
        split at hch'
        · cases hch'
        · rename_i hnoany
          obtain ⟨hch'', l, hl, hmem⟩ := h1 ch' s' hch'
          have hconn : s'.IngestConnection ≠ c := by
            intro heq
            rw [heq, hcs] at hl
            cases hl
            apply hnoany
            simp only [List.any_eq_true]
            exact ⟨s', hmem, by simp [hch'']⟩
          refine ⟨hch'', l, ?_, hmem⟩
          rw [alookup_aerase_ne _ _ _ hconn]
          exact hl
      · intro c' l' hcl
        have hcne : c' ≠ c := by
          intro hc
          rw [hc, alookup_aerase_self] at hcl
          cases hcl
        rw [alookup_aerase_ne _ _ _ hcne] at hcl
        obtain ⟨hnil, hall⟩ := h2 c' l' hcl
        refine ⟨hnil, ?_⟩
        intro s' hmem
        obtain ⟨hconn', hch'⟩ := hall s' hmem
        refine ⟨hconn', ?_⟩
        rw [alookup_foldl_aerase]
        rw [if_neg ?_]
        · exact hch'
        · simp only [List.any_eq_true, not_exists, not_and, Bool.not_eq_true]
          intro t htmem
          obtain ⟨htconn, htch⟩ := (h2 c streams hcs).2 t htmem
          simp only [beq_eq_false_iff_ne, ne_eq]
          intro heq
          rw [heq, hch'] at htch
          have hts : s' = t := Option.some_injective _ htch
          rw [← hts] at htconn
          exact hcne (hconn'.symm.trans htconn)

/-- The `StreamStore` operations of C7. -/
inductive StreamStoreOp where
  | add (stream : Stream)
  | remove (channelId streamId : Nat)
  | removeAllConnectionStreams (connection : Nat)
  | clear
deriving DecidableEq, Repr

/-- Apply one operation; a thrown `AddStream` duplicate-channel exception
leaves the store unchanged (the throw happens before any mutation). -/
def applyStreamStoreOp (ss : StreamStore) : StreamStoreOp → StreamStore
  | .add s =>
      match AddStream ss s with
      | .ok ss2 => ss2
      | .error _ => ss
  | .remove ch sid => (RemoveStream ss ch sid).1
  | .removeAllConnectionStreams c => (RemoveAllConnectionStreams ss c).1
  | .clear => StreamStoreClear

def runStreamStoreOps : StreamStore → List StreamStoreOp → StreamStore
  | ss, [] => ss
  | ss, op :: rest => runStreamStoreOps (applyStreamStoreOp ss op) rest

/-- The side condition the counterexample forces on C7: a `RemoveStream`
call's stream id must match the stored stream of its channel (when one
exists).  All other operations are unrestricted. -/
def StreamStoreOpOkB (ss : StreamStore) : StreamStoreOp → Bool
  | .remove ch sid =>
      match alookup ss.streamByChannelId ch with
      | some s => s.StreamId == sid
      | none => true
  | _ => true

def LegalStreamStoreOps : StreamStore → List StreamStoreOp → Prop
  | _, [] => True
  | ss, op :: rest =>
      StreamStoreOpOkB ss op = true ∧ LegalStreamStoreOps (applyStreamStoreOp ss op) rest

instance instDecidableLegalStreamStoreOps (ss : StreamStore) (ops : List StreamStoreOp) :
    Decidable (LegalStreamStoreOps ss ops) :=
  match ops with
  | [] => .isTrue trivial
  | op :: rest =>
      have : Decidable (LegalStreamStoreOps (applyStreamStoreOp ss op) rest) :=
        instDecidableLegalStreamStoreOps _ rest
      inferInstanceAs (Decidable (_ ∧ _))

theorem applyStreamStoreOp_inv (ss : StreamStore) (op : StreamStoreOp)
    (hinv : StreamStoreInv ss) (hok : StreamStoreOpOkB ss op = true) :
    StreamStoreInv (applyStreamStoreOp ss op) := by
  cases op with
  | add s =>
      show StreamStoreInv (match AddStream ss s with | .ok ss2 => ss2 | .error _ => ss)
      cases hcs : alookup ss.streamByChannelId s.ChannelId with
      | some t => rw [addStream_error ss s (by simp [hcs])]; exact hinv
      | none => rw [addStream_ok ss s hcs]; exact addStream_inv ss s hinv hcs
  | remove ch sid =>
      refine removeStream_inv ss ch sid hinv ?_
      intro s hs
      simp only [StreamStoreOpOkB, hs, beq_iff_eq] at hok
      exact hok
  | removeAllConnectionStreams c => exact removeAllConnectionStreams_inv ss c hinv
  | clear => exact streamStoreInv_empty

theorem runStreamStoreOps_inv (ops : List StreamStoreOp) (ss : StreamStore)
    (hinv : StreamStoreInv ss) (hlegal : LegalStreamStoreOps ss ops) :
    StreamStoreInv (runStreamStoreOps ss ops) := by
  induction ops generalizing ss with
  | nil => exact hinv
  | cons op rest ih =>
      obtain ⟨hok, hrest⟩ := hlegal
      exact ih _ (applyStreamStoreOp_inv ss op hinv hok) hrest

/-- **C7 (amended)** — After any sequence of `StreamStore` operations from the
empty store in which every `RemoveStream(channelId, streamId)` call's stream
id matches the stream currently stored for that channel (when one exists),
the by-channel and the by-ingest-connection indices agree on membership: a
stream is reachable from one index iff it is reachable from the other. -/
theorem stream_store_indices_agree (ops : List StreamStoreOp)
    (hlegal : LegalStreamStoreOps StreamStoreClear ops) :
    MembershipAgree (runStreamStoreOps StreamStoreClear ops) :=
  membershipAgree_of_inv _
    (runStreamStoreOps_inv ops StreamStoreClear streamStoreInv_empty hlegal)

/-- Witness for C7 (amended) on a concrete operation sequence. -/
theorem stream_store_indices_agree_witness :
    LegalStreamStoreOps StreamStoreClear
        [.add ⟨0, 1, 5⟩, .add ⟨2, 3, 4⟩, .remove 1 5,
         .removeAllConnectionStreams 2, .add ⟨0, 1, 7⟩] ∧
      MembershipAgree (runStreamStoreOps StreamStoreClear
        [.add ⟨0, 1, 5⟩, .add ⟨2, 3, 4⟩, .remove 1 5,
         .removeAllConnectionStreams 2, .add ⟨0, 1, 7⟩]) :=
  ⟨by decide,
   stream_store_indices_agree
     [.add ⟨0, 1, 5⟩, .add ⟨2, 3, 4⟩, .remove 1 5,
      .removeAllConnectionStreams 2, .add ⟨0, 1, 7⟩] (by decide)⟩

/-! ## SubscriptionStore consistency (towards C1) -/

theorem filter_eq_nil_of_all_neg {α : Type} (l : List α) (p : α → Bool)
    (h : ∀ x ∈ l, p x = false) : l.filter p = [] := by
  induction l with
  | nil => rfl
  | cons a l ih =>
      rw [List.filter_cons, if_neg (by simp [h a (by simp)])]
      exact ih (fun x hx => h x (by simp [hx]))

theorem filter_erase_pos {α : Type} [DecidableEq α] (l : List α) (a : α)
    (p : α → Bool) (h : p a = true) :
    (l.erase a).filter p = (l.filter p).erase a := by
  induction l with
  | nil => rfl
  | cons b l ih =>
      by_cases hba : b = a
      · subst hba
        rw [List.erase_cons_head, List.filter_cons, if_pos (by simp [h]),
          List.erase_cons_head]
      · rw [List.erase_cons_tail (by simp [hba]), List.filter_cons, List.filter_cons]
        by_cases hpb : p b = true
        · rw [if_pos (by simp [hpb]), if_pos (by simp [hpb]),
            List.erase_cons_tail (by simp [hba]), ih]
        · rw [if_neg (by simp_all), if_neg (by simp_all)]
          exact ih

theorem filter_erase_neg {α : Type} [DecidableEq α] (l : List α) (a : α)
    (p : α → Bool) (h : p a = false) :
    (l.erase a).filter p = l.filter p := by
  induction l with
  | nil => rfl
  | cons b l ih =>
      by_cases hba : b = a
      · subst hba
        rw [List.erase_cons_head, List.filter_cons, if_neg (by simp [h])]
      · rw [List.erase_cons_tail (by simp [hba]), List.filter_cons, List.filter_cons]
        by_cases hpb : p b = true
        · rw [if_pos (by simp [hpb]), if_pos (by simp [hpb]), ih]
        · rw [if_neg (by simp_all), if_neg (by simp_all)]
          exact ih

theorem pairwise_channels_of_filter_le_one (L : List ChannelSubscription)
    (h : ∀ ch, (L.filter (fun sub => sub.ChannelId == ch)).length ≤ 1) :
    L.Pairwise (fun a b => a.ChannelId ≠ b.ChannelId) := by
  induction L with
  | nil => exact List.Pairwise.nil
  | cons a L ih =>
      refine List.Pairwise.cons ?_ (ih ?_)
      · intro b hb heq
        have hone := h a.ChannelId
        rw [List.filter_cons, if_pos (by simp)] at hone
        have hmem : b ∈ L.filter (fun sub => sub.ChannelId == a.ChannelId) :=
          List.mem_filter.mpr ⟨hb, by simp [heq]⟩
        have : 1 ≤ (L.filter (fun sub => sub.ChannelId == a.ChannelId)).length :=
          List.length_pos.mpr (fun hnil => by rw [hnil] at hmem; cases hmem)
        simp only [List.length_cons] at hone
        omega
      · intro ch
        have hone := h ch
        rw [List.filter_cons] at hone
        split at hone
        · simp only [List.length_cons] at hone; omega
        · exact hone

theorem alookup_mem {α : Type} (l : List (Nat × α)) (k : Nat) (v : α)
    (h : alookup l k = some v) : (k, v) ∈ l := by
  induction l with
  | nil => cases h
  | cons p rest ih =>
      obtain ⟨k1, w⟩ := p
      rw [alookup] at h
      split at h
      · cases h
        rename_i heq
        subst heq
        exact List.mem_cons_self _ _
      · exact List.mem_cons_of_mem _ (ih h)

/-- The subscriptions of the pair (connection, channel) as seen from the
by-connection index. -/
def pairSubsConn (ss : SubscriptionStore) (c ch : Nat) : List ChannelSubscription :=
  (GetConnectionSubscriptions ss c).filter (fun sub => sub.ChannelId == ch)

/-- The subscriptions of the pair as seen from the by-channel index. -/
def pairSubsChan (ss : SubscriptionStore) (ch c : Nat) : List ChannelSubscription :=
  (GetChannelSubscriptions ss ch).filter (fun sub => sub.SubscribedConnection == c)

/-- Consistency invariant of the `SubscriptionStore`: entries carry the keys
they are filed under, the two indices list exactly the same subscriptions for
every (connection, channel) pair, and — in the runs C1 constrains — each pair
holds at most one subscription. -/
def SubStoreInv (ss : SubscriptionStore) : Prop :=
  (∀ c sub, sub ∈ GetConnectionSubscriptions ss c → sub.SubscribedConnection = c) ∧
  (∀ ch sub, sub ∈ GetChannelSubscriptions ss ch → sub.ChannelId = ch) ∧
  (∀ c ch, pairSubsConn ss c ch = pairSubsChan ss ch c) ∧
  (∀ c ch, (pairSubsConn ss c ch).length ≤ 1)

theorem subStoreInv_empty : SubStoreInv ⟨[], []⟩ := by
  refine ⟨?_, ?_, ?_, ?_⟩ <;>
    intro x y <;>
    simp [GetConnectionSubscriptions, GetChannelSubscriptions, pairSubsConn,
      pairSubsChan, alookup]

theorem getConn_addSubscription (ss : SubscriptionStore) (c ch : Nat)
    (k : List Nat) (c' : Nat) :
    GetConnectionSubscriptions (AddSubscription ss c ch k).1 c' =
      if c' = c then GetConnectionSubscriptions ss c ++ [⟨c, ch, k⟩]
      else GetConnectionSubscriptions ss c' := by
  unfold AddSubscription GetConnectionSubscriptions
  by_cases h : c' = c
  · subst h
    simp [alookup_aset_self]
  · simp [alookup_aset_ne _ _ _ _ h, h]

theorem getChan_addSubscription (ss : SubscriptionStore) (c ch : Nat)
    (k : List Nat) (ch' : Nat) :
    GetChannelSubscriptions (AddSubscription ss c ch k).1 ch' =
      if ch' = ch then GetChannelSubscriptions ss ch ++ [⟨c, ch, k⟩]
      else GetChannelSubscriptions ss ch' := by
  unfold AddSubscription GetChannelSubscriptions
  by_cases h : ch' = ch
  · subst h
    simp [alookup_aset_self]
  · simp [alookup_aset_ne _ _ _ _ h, h]

theorem getConn_removeSubscription (ss : SubscriptionStore) (c ch : Nat) (c' : Nat) :
    GetConnectionSubscriptions (RemoveSubscription ss c ch).1 c' =
      if c' = c then
        (GetConnectionSubscriptions ss c).filter (fun sub => !(sub.ChannelId == ch))
      else GetConnectionSubscriptions ss c' := by
  unfold RemoveSubscription GetConnectionSubscriptions
  cases hl : alookup ss.subscriptionsByConnection c with
  | none =>
      by_cases h : c' = c <;> simp [h, hl]
  | some subs =>
      by_cases h : c' = c
      · subst h
        simp [alookup_aset_self, hl]
      · simp [alookup_aset_ne _ _ _ _ h, h]

theorem getChan_removeSubscription (ss : SubscriptionStore) (c ch : Nat) (ch' : Nat) :
    GetChannelSubscriptions (RemoveSubscription ss c ch).1 ch' =
      if ch' = ch then
        (GetChannelSubscriptions ss ch).filter
          (fun sub => !(sub.SubscribedConnection == c))
      else GetChannelSubscriptions ss ch' := by
  unfold RemoveSubscription GetChannelSubscriptions
  cases hl : alookup ss.subscriptionsByChannel ch with
  | none =>
      by_cases h : ch' = ch <;> simp [h, hl]
  | some subs =>
      by_cases h : ch' = ch
      · subst h
        simp [alookup_aset_self, hl]
      · simp [alookup_aset_ne _ _ _ _ h, h]

theorem filter_comm_absorb {α : Type} (l : List α) (p q : α → Bool)
    (h : ∀ x, p x = true → q x = true) :
    (l.filter q).filter p = l.filter p := by
  induction l with
  | nil => rfl
  | cons a l ih =>
      by_cases hqa : q a = true
      · by_cases hpa : p a = true <;> simp [List.filter_cons, hqa, hpa, ih]
      · have hpa : p a = false := by
          cases hp : p a with
          | false => rfl
          | true => exact absurd (h a hp) hqa
        simp [List.filter_cons, hqa, hpa, ih]

theorem addSubscription_inv (ss : SubscriptionStore) (c ch : Nat) (k : List Nat)
    (hinv : SubStoreInv ss) (hfresh : pairSubsConn ss c ch = []) :
    SubStoreInv (AddSubscription ss c ch k).1 := by
  obtain ⟨ha, hb, hc, hd⟩ := hinv
  refine ⟨?_, ?_, ?_, ?_⟩
  · intro c' sub hmem
    rw [getConn_addSubscription] at hmem
    split at hmem
    · rename_i h1
      subst h1
      rcases List.mem_append.mp hmem with h2 | h2
      · exact ha _ _ h2
      · simp only [List.mem_singleton] at h2
        subst h2
        rfl
    · exact ha _ _ hmem
  · intro ch' sub hmem
    rw [getChan_addSubscription] at hmem
    split at hmem
    · rename_i h1
      subst h1
      rcases List.mem_append.mp hmem with h2 | h2
      · exact hb _ _ h2
      · simp only [List.mem_singleton] at h2
        subst h2
        rfl
    · exact hb _ _ hmem
  · intro c' ch'
    have hcc := hc c' ch'
    simp only [pairSubsConn, pairSubsChan] at hcc ⊢
    rw [getConn_addSubscription, getChan_addSubscription]
    by_cases h1 : c' = c <;> by_cases h2 : ch' = ch
    · subst h1; subst h2
      rw [if_pos rfl, if_pos rfl, List.filter_append, List.filter_append, hcc]
      simp
    · subst h1
      rw [if_pos rfl, if_neg h2, List.filter_append,
        show (([⟨c', ch, k⟩] : List ChannelSubscription).filter
          (fun sub => sub.ChannelId == ch')) = [] from by
            simp
            exact fun h => h2 h.symm,
        List.append_nil, hcc]
    · subst h2
      rw [if_neg h1, if_pos rfl, List.filter_append,
        show (([⟨c, ch', k⟩] : List ChannelSubscription).filter
          (fun sub => sub.SubscribedConnection == c')) = [] from by
            simp
            exact fun h => h1 h.symm,
        List.append_nil, hcc]
    · rw [if_neg h1, if_neg h2, hcc]
  · intro c' ch'
    have hdd := hd c' ch'
    simp only [pairSubsConn] at hdd ⊢
    rw [getConn_addSubscription]
    by_cases h1 : c' = c
    · subst h1
      rw [if_pos rfl, List.filter_append]
      by_cases h2 : ch' = ch
      · subst h2
        have hfr : (GetConnectionSubscriptions ss c').filter
            (fun sub => sub.ChannelId == ch') = [] := hfresh
        rw [hfr]
        simp
      · rw [show (([⟨c', ch, k⟩] : List ChannelSubscription).filter
            (fun sub => sub.ChannelId == ch')) = [] from by
              simp
              exact fun h => h2 h.symm,
          List.append_nil]
        exact hdd
    · rw [if_neg h1]
      exact hdd

theorem removeSubscription_inv (ss : SubscriptionStore) (c ch : Nat)
    (hinv : SubStoreInv ss) :
    SubStoreInv (RemoveSubscription ss c ch).1 := by
  obtain ⟨ha, hb, hc, hd⟩ := hinv
  refine ⟨?_, ?_, ?_, ?_⟩
  · intro c' sub hmem
    rw [getConn_removeSubscription] at hmem
    split at hmem
    · rename_i h1
      subst h1
      exact ha _ _ (List.mem_filter.mp hmem).1
    · exact ha _ _ hmem
  · intro ch' sub hmem
    rw [getChan_removeSubscription] at hmem
    split at hmem
    · rename_i h1
      subst h1
      exact hb _ _ (List.mem_filter.mp hmem).1
    · exact hb _ _ hmem
  · intro c' ch'
    have hcc := hc c' ch'
    simp only [pairSubsConn, pairSubsChan] at hcc ⊢
    rw [getConn_removeSubscription, getChan_removeSubscription]
    by_cases h1 : c' = c <;> by_cases h2 : ch' = ch
    · subst h1; subst h2
      rw [if_pos rfl, if_pos rfl]
      rw [filter_eq_nil_of_all_neg _ _ (fun x hx => ?_),
        filter_eq_nil_of_all_neg _ _ (fun x hx => ?_)]
      · have hxx := (List.mem_filter.mp hx).2
        simp only [Bool.not_eq_eq_eq_not, Bool.not_true] at hxx
        exact hxx
      · have hxx := (List.mem_filter.mp hx).2
        simp only [Bool.not_eq_eq_eq_not, Bool.not_true] at hxx
        exact hxx
    · subst h1
      rw [if_pos rfl, if_neg h2,
        filter_comm_absorb _ _ _ (fun x hx => by
          simp only [beq_iff_eq] at hx
          simp [hx, fun h : ch' = ch => h2 h]),
        hcc]
    · subst h2
      rw [if_neg h1, if_pos rfl,
        filter_comm_absorb _ _ _ (fun x hx => by
          simp only [beq_iff_eq] at hx
          simp [hx, fun h : c' = c => h1 h]),
        hcc]
    · rw [if_neg h1, if_neg h2, hcc]
  · intro c' ch'
    have hdd := hd c' ch'
    simp only [pairSubsConn] at hdd ⊢
    rw [getConn_removeSubscription]
    by_cases h1 : c' = c
    · subst h1
      rw [if_pos rfl]
      by_cases h2 : ch' = ch
      · subst h2
        rw [filter_eq_nil_of_all_neg _ _ (fun x hx => ?_)]
        · simp
        · have hxx := (List.mem_filter.mp hx).2
          simp only [Bool.not_eq_eq_eq_not, Bool.not_true] at hxx
          exact hxx
      · rw [filter_comm_absorb _ _ _ (fun x hx => by
          simp only [beq_iff_eq] at hx
          simp [hx, fun h : ch' = ch => h2 h])]
        exact hdd
    · rw [if_neg h1]
      exact hdd

theorem clearSubscriptionsLoop_char (subs : List ChannelSubscription)
    (byChan : List (Nat × List ChannelSubscription))
    (hpw : subs.Pairwise (fun a b => a.ChannelId ≠ b.ChannelId))
    (hmem : ∀ sub ∈ subs, sub ∈ (alookup byChan sub.ChannelId).getD []) :
    ∃ m2, clearSubscriptionsLoop byChan subs = .ok m2 ∧
      ∀ ch, (alookup m2 ch).getD [] =
        match subs.find? (fun sub => sub.ChannelId == ch) with
        | some sub => ((alookup byChan ch).getD []).erase sub
        | none => (alookup byChan ch).getD [] := by
  induction subs generalizing byChan with
  | nil => exact ⟨byChan, rfl, fun ch => rfl⟩
  | cons sub rest ih =>
      have hsubmem := hmem sub (List.mem_cons_self _ _)
      obtain ⟨hhead, htail⟩ := List.pairwise_cons.mp hpw
      cases hlk : alookup byChan sub.ChannelId with
      | none =>
          rw [hlk] at hsubmem
          simp at hsubmem
      | some chanSubs =>
          rw [hlk] at hsubmem
          simp only [Option.getD_some] at hsubmem
          have hchan2 : ∀ ch,
              (alookup (if (chanSubs.erase sub).isEmpty then
                  aerase byChan sub.ChannelId
                else aset byChan sub.ChannelId (chanSubs.erase sub)) ch).getD [] =
              if ch = sub.ChannelId then chanSubs.erase sub
              else (alookup byChan ch).getD [] := by
            intro ch
            by_cases hcheq : ch = sub.ChannelId
            · subst hcheq
              rw [if_pos rfl]
              split
              · rename_i hempt
                rw [alookup_aerase_self, List.isEmpty_iff.mp hempt]
                rfl
              · rw [alookup_aset_self]
                rfl
            · rw [if_neg hcheq]
              split
              · rw [alookup_aerase_ne _ _ _ hcheq]
              · rw [alookup_aset_ne _ _ _ _ hcheq]
          have hmem2 : ∀ s ∈ rest,
              s ∈ (alookup (if (chanSubs.erase sub).isEmpty then
                  aerase byChan sub.ChannelId
                else aset byChan sub.ChannelId (chanSubs.erase sub)) s.ChannelId).getD [] := by
            intro s hs
            rw [hchan2, if_neg (fun heq => hhead s hs heq.symm)]
            exact hmem s (List.mem_cons_of_mem _ hs)
          obtain ⟨m2, hloop, hchar⟩ := ih _ htail hmem2
          refine ⟨m2, ?_, ?_⟩
          · show clearSubscriptionsLoop byChan (sub :: rest) = .ok m2
            unfold clearSubscriptionsLoop
            rw [hlk]
            exact hloop
          · intro ch
            rw [hchar ch]
            by_cases hcheq : ch = sub.ChannelId
            · subst hcheq
              have hfindRest : rest.find? (fun s => s.ChannelId == sub.ChannelId) = none := by
                rw [List.find?_eq_none]
                intro s hs
                simp only [beq_iff_eq]
                exact fun heq => hhead s hs heq.symm
              have hfindCons : (sub :: rest).find?
                  (fun s => s.ChannelId == sub.ChannelId) = some sub :=
                List.find?_cons_of_pos _ (by simp)
              simp only [hfindRest, hfindCons]
              rw [hchan2 sub.ChannelId, if_pos rfl, hlk]
              rfl
            · have hne : (sub.ChannelId == ch) = false := by
                simp only [beq_eq_false_iff_ne, ne_eq]
                exact fun heq => hcheq heq.symm
              have hfindCons : (sub :: rest).find? (fun s => s.ChannelId == ch) =
                  rest.find? (fun s => s.ChannelId == ch) :=
                List.find?_cons_of_neg _ (by simp [hne])
              simp only [hfindCons, hchan2, if_neg hcheq]

theorem clearSubscriptions_char (ss : SubscriptionStore) (c : Nat)
    (hinv : SubStoreInv ss) :
    ∃ ss2, ClearSubscriptions ss c = .ok ss2 ∧
      (∀ c', GetConnectionSubscriptions ss2 c' =
        if c' = c then [] else GetConnectionSubscriptions ss c') ∧
      (∀ ch, GetChannelSubscriptions ss2 ch =
        match (GetConnectionSubscriptions ss c).find?
            (fun sub => sub.ChannelId == ch) with
        | some sub => (GetChannelSubscriptions ss ch).erase sub
        | none => GetChannelSubscriptions ss ch) := by
  obtain ⟨ha, hb, hc, hd⟩ := hinv
  cases hlk : alookup ss.subscriptionsByConnection c with
  | none =>
      have hconn : GetConnectionSubscriptions ss c = [] := by
        simp [GetConnectionSubscriptions, hlk]
      refine ⟨ss, by simp [ClearSubscriptions, hlk], ?_, ?_⟩
      · intro c'
        by_cases h : c' = c
        · subst h
          rw [if_pos rfl, hconn]
        · rw [if_neg h]
      · intro ch
        rw [hconn]
        rfl
  | some subs =>
      have hsubs : GetConnectionSubscriptions ss c = subs := by
        simp [GetConnectionSubscriptions, hlk]
      have hpw : subs.Pairwise (fun a b => a.ChannelId ≠ b.ChannelId) := by
        refine pairwise_channels_of_filter_le_one subs (fun ch => ?_)
        have hdd := hd c ch
        rw [pairSubsConn, hsubs] at hdd
        exact hdd
      have hmem : ∀ sub ∈ subs,
          sub ∈ (alookup ss.subscriptionsByChannel sub.ChannelId).getD [] := by
        intro sub hs
        have h1 : sub ∈ pairSubsConn ss c sub.ChannelId := by
          rw [pairSubsConn, hsubs]
          exact List.mem_filter.mpr ⟨hs, by simp⟩
        rw [hc c sub.ChannelId] at h1
        exact (List.mem_filter.mp h1).1
      obtain ⟨m2, hloop, hchar⟩ :=
        clearSubscriptionsLoop_char subs ss.subscriptionsByChannel hpw hmem
      refine ⟨⟨aerase ss.subscriptionsByConnection c, m2⟩, ?_, ?_, ?_⟩
      · simp [ClearSubscriptions, hlk, hloop]
      · intro c'
        by_cases h : c' = c
        · subst h
          simp [GetConnectionSubscriptions, alookup_aerase_self]
        · simp [GetConnectionSubscriptions, alookup_aerase_ne _ _ _ h, h]
      · intro ch
        rw [hsubs]
        show (alookup m2 ch).getD [] = _
        rw [hchar ch]
        rfl

theorem eq_singleton_of_mem_of_length_le_one {α : Type} (l : List α) (a : α)
    (hmem : a ∈ l) (hlen : l.length ≤ 1) : l = [a] := by
  cases l with
  | nil => cases hmem
  | cons x t =>
      cases t with
      | nil =>
          simp only [List.mem_singleton] at hmem
          rw [hmem]
      | cons y u => simp at hlen

theorem clearSubscriptions_inv (ss : SubscriptionStore) (c : Nat)
    (hinv : SubStoreInv ss) (ss2 : SubscriptionStore)
    (hconn : ∀ c', GetConnectionSubscriptions ss2 c' =
      if c' = c then [] else GetConnectionSubscriptions ss c')
    (hchan : ∀ ch, GetChannelSubscriptions ss2 ch =
      match (GetConnectionSubscriptions ss c).find?
          (fun sub => sub.ChannelId == ch) with
      | some sub => (GetChannelSubscriptions ss ch).erase sub
      | none => GetChannelSubscriptions ss ch) :
    SubStoreInv ss2 := by
  obtain ⟨ha, hb, hc, hd⟩ := hinv
  refine ⟨?_, ?_, ?_, ?_⟩
  · intro c' sub hmem
    rw [hconn] at hmem
    split at hmem
    · cases hmem
    · exact ha _ _ hmem
  · intro ch sub hmem
    rw [hchan] at hmem
    split at hmem
    · exact hb _ _ (List.mem_of_mem_erase hmem)
    · exact hb _ _ hmem
  · intro c' ch'
    have hL : pairSubsConn ss2 c' ch' =
        if c' = c then [] else pairSubsConn ss c' ch' := by
      unfold pairSubsConn
      rw [hconn]
      split
      · rfl
      · rfl
    rw [hL]
    unfold pairSubsChan
    rw [hchan]
    cases hfind : (GetConnectionSubscriptions ss c).find?
        (fun sub => sub.ChannelId == ch') with
    | some s0 =>
        have hs0mem : s0 ∈ GetConnectionSubscriptions ss c :=
          List.mem_of_find?_eq_some hfind
        have hs0ch : s0.ChannelId = ch' := by
          have := List.find?_some hfind
          simpa using this
        have hs0conn : s0.SubscribedConnection = c := ha c s0 hs0mem
        by_cases h1 : c' = c
        · rw [if_pos h1]
          rw [filter_erase_pos _ _ _ (by simp [hs0conn, h1])]
          have hpc : (GetChannelSubscriptions ss ch').filter
              (fun sub => sub.SubscribedConnection == c') = pairSubsConn ss c' ch' :=
            (hc c' ch').symm
          rw [hpc]
          have hs0pair : s0 ∈ pairSubsConn ss c' ch' := by
            unfold pairSubsConn
            rw [h1]
            exact List.mem_filter.mpr ⟨hs0mem, by simp [hs0ch]⟩
          rw [eq_singleton_of_mem_of_length_le_one _ _ hs0pair (hd c' ch')]
          simp
        · rw [if_neg h1]
          rw [filter_erase_neg _ _ _ (by
            simp only [beq_eq_false_iff_ne, ne_eq, hs0conn]
            exact fun hh => h1 hh.symm)]
          exact hc c' ch'
    | none =>
        by_cases h1 : c' = c
        · rw [if_pos h1]
          have hnil : pairSubsConn ss c' ch' = [] := by
            unfold pairSubsConn
            rw [h1]
            refine filter_eq_nil_of_all_neg _ _ (fun x hx => ?_)
            have := List.find?_eq_none.mp hfind x hx
            simpa using this
          have hx := hc c' ch'
          rw [hnil] at hx
          simp only [pairSubsChan] at hx
          exact hx
        · rw [if_neg h1]
          exact hc c' ch'
  · intro c' ch'
    have hL : pairSubsConn ss2 c' ch' =
        if c' = c then [] else pairSubsConn ss c' ch' := by
      unfold pairSubsConn
      rw [hconn]
      split
      · rfl
      · rfl
    rw [hL]
    split
    · simp
    · exact hd c' ch'

/-! ## Orchestrator event system: invariants and helper lemmas -/

theorem subscriptionExists_iff_pair (st : OrchState) (c ch : Nat) :
    subscriptionExists st c ch = true ↔ pairSubsConn st.subscriptions c ch ≠ [] := by
  unfold subscriptionExists pairSubsConn
  rw [List.any_eq_true]
  constructor
  · rintro ⟨x, hx, hp⟩ hnil
    have hxm : x ∈ (GetConnectionSubscriptions st.subscriptions c).filter
        (fun sub => sub.ChannelId == ch) := List.mem_filter.mpr ⟨hx, hp⟩
    rw [hnil] at hxm
    cases hxm
  · intro hne
    cases hfl : (GetConnectionSubscriptions st.subscriptions c).filter
        (fun sub => sub.ChannelId == ch) with
    | nil => exact absurd hfl hne
    | cons a t =>
        have ham : a ∈ (GetConnectionSubscriptions st.subscriptions c).filter
            (fun sub => sub.ChannelId == ch) := by rw [hfl]; simp
        obtain ⟨hmem, hp⟩ := List.mem_filter.mp ham
        exact ⟨a, hmem, hp⟩

theorem pair_length_ite (st : OrchState) (c ch : Nat)
    (hd : (pairSubsConn st.subscriptions c ch).length ≤ 1) :
    (pairSubsConn st.subscriptions c ch).length =
      if subscriptionExists st c ch = true then 1 else 0 := by
  by_cases hex : subscriptionExists st c ch = true
  · rw [if_pos hex]
    have hne := (subscriptionExists_iff_pair st c ch).mp hex
    have hpos : 0 < (pairSubsConn st.subscriptions c ch).length :=
      List.length_pos.mpr hne
    omega
  · rw [if_neg hex]
    have hnil : pairSubsConn st.subscriptions c ch = [] := by
      by_contra hne
      exact hex ((subscriptionExists_iff_pair st c ch).mpr hne)
    rw [hnil]
    rfl

theorem countStart_append (l1 l2 : List RelayInstruction) (ch c : Nat) :
    countStart (l1 ++ l2) ch c = countStart l1 ch c + countStart l2 ch c := by
  simp [countStart, List.filter_append]

theorem countStop_append (l1 l2 : List RelayInstruction) (ch c : Nat) :
    countStop (l1 ++ l2) ch c = countStop l1 ch c + countStop l2 ch c := by
  simp [countStop, List.filter_append]

theorem countStart_cons (r : RelayInstruction) (l : List RelayInstruction) (ch c : Nat) :
    countStart (r :: l) ch c =
      (if r.IsStartRelay && r.ChannelId == ch && r.TargetEdge == c then 1 else 0) +
        countStart l ch c := by
  unfold countStart
  rw [List.filter_cons]
  split
  · simp [Nat.add_comm]
  · simp

theorem countStop_cons (r : RelayInstruction) (l : List RelayInstruction) (ch c : Nat) :
    countStop (r :: l) ch c =
      (if !r.IsStartRelay && r.ChannelId == ch && r.TargetEdge == c then 1 else 0) +
        countStop l ch c := by
  unfold countStop
  rw [List.filter_cons]
  split
  · simp [Nat.add_comm]
  · simp

theorem countStart_map_openRoute (subs : List ChannelSubscription) (ns : Stream)
    (ch0 c0 : Nat) :
    countStart (subs.map (fun sub =>
        openRoute ns sub.SubscribedConnection sub.StreamKey)) ch0 c0 =
      if ns.ChannelId = ch0 then
        (subs.filter (fun sub => sub.SubscribedConnection == c0)).length
      else 0 := by
  induction subs with
  | nil =>
      simp only [List.map_nil, List.filter_nil, List.length_nil]
      split <;> rfl
  | cons sub rest ih =>
      rw [List.map_cons, countStart_cons, ih, List.filter_cons]
      by_cases h1 : ns.ChannelId = ch0 <;> by_cases h2 : sub.SubscribedConnection = c0
      · have hr : ((openRoute ns sub.SubscribedConnection sub.StreamKey).IsStartRelay &&
            (openRoute ns sub.SubscribedConnection sub.StreamKey).ChannelId == ch0 &&
            (openRoute ns sub.SubscribedConnection sub.StreamKey).TargetEdge == c0) =
            true := by simp [openRoute, h1, h2]
        have hf : (sub.SubscribedConnection == c0) = true := by simp [h2]
        rw [if_pos hr, if_pos h1, if_pos h1, if_pos hf]
        simp [Nat.add_comm]
      · have hr : ¬(((openRoute ns sub.SubscribedConnection sub.StreamKey).IsStartRelay &&
            (openRoute ns sub.SubscribedConnection sub.StreamKey).ChannelId == ch0 &&
            (openRoute ns sub.SubscribedConnection sub.StreamKey).TargetEdge == c0) =
            true) := by simp [openRoute, h2]
        have hf : ¬((sub.SubscribedConnection == c0) = true) := by simp [h2]
        rw [if_neg hr, if_pos h1, if_pos h1, if_neg hf]
        simp
      · have hr : ¬(((openRoute ns sub.SubscribedConnection sub.StreamKey).IsStartRelay &&
            (openRoute ns sub.SubscribedConnection sub.StreamKey).ChannelId == ch0 &&
            (openRoute ns sub.SubscribedConnection sub.StreamKey).TargetEdge == c0) =
            true) := by simp [openRoute, h1]
        rw [if_neg hr, if_neg h1, if_neg h1]
      · have hr : ¬(((openRoute ns sub.SubscribedConnection sub.StreamKey).IsStartRelay &&
            (openRoute ns sub.SubscribedConnection sub.StreamKey).ChannelId == ch0 &&
            (openRoute ns sub.SubscribedConnection sub.StreamKey).TargetEdge == c0) =
            true) := by simp [openRoute, h1]
        rw [if_neg hr, if_neg h1, if_neg h1]

theorem countStop_map_openRoute (subs : List ChannelSubscription) (ns : Stream)
    (ch0 c0 : Nat) :
    countStop (subs.map (fun sub =>
        openRoute ns sub.SubscribedConnection sub.StreamKey)) ch0 c0 = 0 := by
  induction subs with
  | nil => rfl
  | cons sub rest ih =>
      rw [List.map_cons, countStop_cons, ih, if_neg (by simp [openRoute])]

theorem closed_relays_countStart (stS : StreamStore)
    (subsC : List ChannelSubscription) (c ch0 c0 : Nat) :
    countStart (subsC.filterMap (fun sub =>
        match alookup stS.streamByChannelId sub.ChannelId with
        | some stream => some (closeRoute stream c)
        | none => none)) ch0 c0 = 0 := by
  induction subsC with
  | nil => rfl
  | cons sub rest ih =>
      rw [List.filterMap_cons]
      cases alookup stS.streamByChannelId sub.ChannelId with
      | none => exact ih
      | some stream =>
          rw [countStart_cons, ih, if_neg (by simp [closeRoute])]

theorem closed_relays_countStop (stS : StreamStore)
    (hS1 : ∀ ch s, alookup stS.streamByChannelId ch = some s → s.ChannelId = ch)
    (subsC : List ChannelSubscription) (c ch0 c0 : Nat) :
    countStop (subsC.filterMap (fun sub =>
        match alookup stS.streamByChannelId sub.ChannelId with
        | some stream => some (closeRoute stream c)
        | none => none)) ch0 c0 =
      if c0 = c then
        (subsC.filter (fun sub => sub.ChannelId == ch0)).length *
          (if (alookup stS.streamByChannelId ch0).isSome = true then 1 else 0)
      else 0 := by
  induction subsC with
  | nil =>
      simp only [List.filterMap_nil, List.filter_nil, List.length_nil, Nat.zero_mul]
      split <;> rfl
  | cons sub rest ih =>
      rw [List.filterMap_cons]
      cases hlkp : alookup stS.streamByChannelId sub.ChannelId with
      | none =>
          rw [ih, List.filter_cons]
          by_cases h1 : c0 = c
          · rw [if_pos h1, if_pos h1]
            by_cases h2 : sub.ChannelId = ch0
            · have hf : (sub.ChannelId == ch0) = true := by simp [h2]
              have hfac : alookup stS.streamByChannelId ch0 = none := h2 ▸ hlkp
              rw [if_pos hf, hfac]
              simp
            · have hf : ¬((sub.ChannelId == ch0) = true) := by simp [h2]
              rw [if_neg hf]
          · rw [if_neg h1, if_neg h1]
      | some stream =>
          have hstch : stream.ChannelId = sub.ChannelId := hS1 _ _ hlkp
          rw [countStop_cons, ih, List.filter_cons]
          by_cases h1 : c0 = c
          · rw [if_pos h1, if_pos h1]
            by_cases h2 : sub.ChannelId = ch0
            · have hr : (!(closeRoute stream c).IsStartRelay &&
                  (closeRoute stream c).ChannelId == ch0 &&
                  (closeRoute stream c).TargetEdge == c0) = true := by
                simp [closeRoute, hstch, h2, h1]
              have hf : (sub.ChannelId == ch0) = true := by simp [h2]
              have hfac : alookup stS.streamByChannelId ch0 = some stream :=
                h2 ▸ hlkp
              rw [if_pos hr, if_pos hf, hfac]
              simp [Nat.add_comm]
            · have hr : ¬((!(closeRoute stream c).IsStartRelay &&
                  (closeRoute stream c).ChannelId == ch0 &&
                  (closeRoute stream c).TargetEdge == c0) = true) := by
                simp [closeRoute, hstch, h2]
              have hf : ¬((sub.ChannelId == ch0) = true) := by simp [h2]
              rw [if_neg hr, if_neg hf]
              simp
          · have hr : ¬((!(closeRoute stream c).IsStartRelay &&
                (closeRoute stream c).ChannelId == ch0 &&
                (closeRoute stream c).TargetEdge == c0) = true) := by
              simp [closeRoute]
              exact fun _ hh => h1 hh.symm
            rw [if_neg hr, if_neg h1, if_neg h1]

theorem getStream_removeStream_ne (ss : StreamStore) (ch sid ch0 : Nat)
    (h : ch0 ≠ ch) :
    alookup (RemoveStream ss ch sid).1.streamByChannelId ch0 =
      alookup ss.streamByChannelId ch0 := by
  unfold RemoveStream
  split
  · rfl
  · split
    · exact alookup_aerase_ne ss.streamByChannelId ch ch0 h
    · exact alookup_aerase_ne ss.streamByChannelId ch ch0 h

theorem removeAll_noop (ss : StreamStore) (c : Nat) (hinv : StreamStoreInv ss)
    (hnone : ∀ p ∈ ss.streamByChannelId, p.2.IngestConnection ≠ c) :
    (RemoveAllConnectionStreams ss c).1 = ss := by
  unfold RemoveAllConnectionStreams
  cases hcs : alookup ss.streamsByIngestConnection c with
  | none => rfl
  | some streams =>
      obtain ⟨hnil, hall⟩ := hinv.2 c streams hcs
      exfalso
      cases streams with
      | nil => exact hnil rfl
      | cons s rest =>
          obtain ⟨hconn, hch⟩ := hall s (by simp)
          exact hnone _ (alookup_mem _ _ _ hch) hconn

/-- The orchestrator invariant through C1's runs: both stores are
consistent. -/
def OrchInv (st : OrchState) : Prop :=
  StreamStoreInv st.streamStore ∧ SubStoreInv st.subscriptions

theorem orchInv_empty : OrchInv emptyOrchestrator :=
  ⟨streamStoreInv_empty, subStoreInv_empty⟩

/-- The side conditions the counterexamples force on C1's interleavings:
subscribes are for pairs not currently subscribed, unsubscribes for currently
subscribed pairs, publishes on channels with no current stream, unpublishes
carry the stored stream id and hit channels with no current subscriptions, and
closed connections are not the origin of any current stream. -/
def EventOkB (st : OrchState) : OrchEvent → Bool
  | .subscribe c ch _ => !subscriptionExists st c ch
  | .unsubscribe c ch => subscriptionExists st c ch
  | .publish _ ch _ => !streamExists st ch
  | .unpublish _ ch sid =>
      (match GetStreamByChannelId st.streamStore ch with
       | some s => s.StreamId == sid
       | none => true) &&
      (GetChannelSubscriptions st.subscriptions ch).isEmpty
  | .closed c =>
      st.streamStore.streamByChannelId.all (fun p => !(p.2.IngestConnection == c))

/-- The state after one event (the pre-state when the handler throws). -/
def stepEvent (st : OrchState) (e : OrchEvent) : OrchState :=
  match applyEvent st e with
  | .ok (st2, _) => st2
  | .error _ => st

def LegalEvents : OrchState → List OrchEvent → Prop
  | _, [] => True
  | st, e :: rest => EventOkB st e = true ∧ LegalEvents (stepEvent st e) rest

instance instDecidableLegalEvents (st : OrchState) (evs : List OrchEvent) :
    Decidable (LegalEvents st evs) :=
  match evs with
  | [] => .isTrue trivial
  | e :: rest =>
      have : Decidable (LegalEvents (stepEvent st e) rest) :=
        instDecidableLegalEvents _ rest
      inferInstanceAs (Decidable (_ ∧ _))

theorem any_comm_absorb {α : Type} (l : List α) (p q : α → Bool)
    (h : ∀ x, p x = true → q x = true) :
    (l.filter q).any p = l.any p := by
  induction l with
  | nil => rfl
  | cons a l ih =>
      by_cases hqa : q a = true
      · simp [List.filter_cons, hqa, ih]
      · have hpa : p a = false := by
          cases hp : p a with
          | false => rfl
          | true => exact absurd (h a hp) hqa
        simp [List.filter_cons, hqa, hpa, ih]

theorem any_getConn_add (ss : SubscriptionStore) (c ch : Nat) (k : List Nat)
    (c0 ch0 : Nat) :
    ((GetConnectionSubscriptions (AddSubscription ss c ch k).1 c0).any
        (fun sub => sub.ChannelId == ch0)) =
      (if c0 = c ∧ ch0 = ch then true
       else (GetConnectionSubscriptions ss c0).any
         (fun sub => sub.ChannelId == ch0)) := by
  rw [getConn_addSubscription]
  by_cases h1 : c0 = c
  · rw [if_pos h1, List.any_append]
    by_cases h2 : ch0 = ch
    · rw [if_pos (show c0 = c ∧ ch0 = ch from ⟨h1, h2⟩)]
      simp [h2]
    · have hcond : ¬(c0 = c ∧ ch0 = ch) := fun hh => h2 hh.2
      rw [if_neg hcond]
      have hne : (ch == ch0) = false := by
        simp only [beq_eq_false_iff_ne, ne_eq]
        exact fun hh => h2 hh.symm
      simp [hne, h1]
  · have hcond : ¬(c0 = c ∧ ch0 = ch) := fun hh => h1 hh.1
    rw [if_neg h1, if_neg hcond]

theorem any_getConn_remove (ss : SubscriptionStore) (c ch : Nat) (c0 ch0 : Nat) :
    ((GetConnectionSubscriptions (RemoveSubscription ss c ch).1 c0).any
        (fun sub => sub.ChannelId == ch0)) =
      (if c0 = c ∧ ch0 = ch then false
       else (GetConnectionSubscriptions ss c0).any
         (fun sub => sub.ChannelId == ch0)) := by
  rw [getConn_removeSubscription]
  by_cases h1 : c0 = c
  · rw [if_pos h1]
    by_cases h2 : ch0 = ch
    · rw [if_pos (show c0 = c ∧ ch0 = ch from ⟨h1, h2⟩)]
      rw [List.any_eq_false]
      intro x hx
      have hxf := (List.mem_filter.mp hx).2
      simp only [Bool.not_eq_eq_eq_not, Bool.not_true, beq_eq_false_iff_ne, ne_eq] at hxf
      simp only [beq_eq_false_iff_ne, ne_eq, Bool.not_eq_true]
      rw [h2]
      simpa using hxf
    · have hcond : ¬(c0 = c ∧ ch0 = ch) := fun hh => h2 hh.2
      rw [if_neg hcond, h1]
      exact any_comm_absorb _ _ _ (fun x hx => by
        simp only [beq_iff_eq] at hx
        simp [hx, fun hh : ch0 = ch => h2 hh])
  · have hcond : ¬(c0 = c ∧ ch0 = ch) := fun hh => h1 hh.1
    rw [if_neg h1, if_neg hcond]

/-- One subscribe event under the orchestrator invariant, for a pair not
currently subscribed: the handler succeeds, the invariant is preserved and the
start/stop balance moves exactly with the coexistence of stream and
subscription. -/
theorem subscribe_step (st : OrchState) (c ch : Nat) (k : List Nat)
    (hinv : OrchInv st) (hok : subscriptionExists st c ch = false) :
    ∃ st2 relays, applyEvent st (.subscribe c ch k) = .ok (st2, relays) ∧
      OrchInv st2 ∧
      ∀ ch0 c0,
        countStart relays ch0 c0 + (if coexist st ch0 c0 = true then 1 else 0) =
        countStop relays ch0 c0 + (if coexist st2 ch0 c0 = true then 1 else 0) := by
  obtain ⟨hS, hsub⟩ := hinv
  have hfresh : pairSubsConn st.subscriptions c ch = [] := by
    by_contra hne
    rw [(subscriptionExists_iff_pair st c ch).mpr hne] at hok
    cases hok
  have hinv2 : OrchInv ⟨st.streamStore, (AddSubscription st.subscriptions c ch k).1,
      st.pendingConnections, st.connections⟩ :=
    ⟨hS, addSubscription_inv _ c ch k hsub hfresh⟩
  have hex2 : ∀ c0 ch0,
      subscriptionExists ⟨st.streamStore, (AddSubscription st.subscriptions c ch k).1,
        st.pendingConnections, st.connections⟩ c0 ch0 =
      (if c0 = c ∧ ch0 = ch then true else subscriptionExists st c0 ch0) := by
    intro c0 ch0
    unfold subscriptionExists
    exact any_getConn_add st.subscriptions c ch k c0 ch0
  have hcx2 : ∀ ch0 c0,
      coexist ⟨st.streamStore, (AddSubscription st.subscriptions c ch k).1,
        st.pendingConnections, st.connections⟩ ch0 c0 =
      (streamExists st ch0 &&
        (if c0 = c ∧ ch0 = ch then true else subscriptionExists st c0 ch0)) := by
    intro ch0 c0
    unfold coexist
    rw [hex2]
    rfl
  cases hstream : GetStreamByChannelId st.streamStore ch with
  | some stream =>
      have hschan : stream.ChannelId = ch := (hS.1 ch stream hstream).1
      refine ⟨⟨st.streamStore, (AddSubscription st.subscriptions c ch k).1,
        st.pendingConnections, st.connections⟩, [openRoute stream c k], ?_, hinv2, ?_⟩
      · simp [applyEvent, connectionChannelSubscription, AddSubscription, hstream]
      · intro ch0 c0
        rw [hcx2]
        by_cases h1 : c0 = c <;> by_cases h2 : ch0 = ch
        · have cs : countStart [openRoute stream c k] ch0 c0 = 1 := by
            simp [countStart, openRoute, hschan, h1, h2]
          have cp : countStop [openRoute stream c k] ch0 c0 = 0 := by
            simp [countStop, openRoute]
          have cx1 : coexist st ch0 c0 = false := by
            simp [coexist, h1, h2, hok]
          have hse : streamExists st ch0 = true := by
            simp [streamExists, h2, hstream]
          rw [cs, cp, cx1, hse, if_pos (show c0 = c ∧ ch0 = ch from ⟨h1, h2⟩)]
          simp
        · have cs : countStart [openRoute stream c k] ch0 c0 = 0 := by
            simp [countStart, openRoute, hschan]
            exact fun hh => absurd hh.symm h2
          have cp : countStop [openRoute stream c k] ch0 c0 = 0 := by
            simp [countStop, openRoute]
          rw [cs, cp, if_neg (show ¬(c0 = c ∧ ch0 = ch) from fun hh => h2 hh.2)]
          simp [coexist]
        · have cs : countStart [openRoute stream c k] ch0 c0 = 0 := by
            simp [countStart, openRoute]
            exact fun _ hh => absurd hh.symm h1
          have cp : countStop [openRoute stream c k] ch0 c0 = 0 := by
            simp [countStop, openRoute]
          rw [cs, cp, if_neg (show ¬(c0 = c ∧ ch0 = ch) from fun hh => h1 hh.1)]
          simp [coexist]
        · have cs : countStart [openRoute stream c k] ch0 c0 = 0 := by
            simp [countStart, openRoute]
            exact fun _ hh => absurd hh.symm h1
          have cp : countStop [openRoute stream c k] ch0 c0 = 0 := by
            simp [countStop, openRoute]
          rw [cs, cp, if_neg (show ¬(c0 = c ∧ ch0 = ch) from fun hh => h1 hh.1)]
          simp [coexist]
  | none =>
      refine ⟨⟨st.streamStore, (AddSubscription st.subscriptions c ch k).1,
        st.pendingConnections, st.connections⟩, [], ?_, hinv2, ?_⟩
      · simp [applyEvent, connectionChannelSubscription, AddSubscription, hstream]
      · intro ch0 c0
        rw [hcx2]
        by_cases h1 : c0 = c <;> by_cases h2 : ch0 = ch
        · have hse : streamExists st ch0 = false := by
            simp [streamExists, h2, hstream]
          have cx1 : coexist st ch0 c0 = false := by
            simp [coexist, hse]
          rw [cx1, hse]
          simp [countStart, countStop]
        · rw [if_neg (show ¬(c0 = c ∧ ch0 = ch) from fun hh => h2 hh.2)]
          simp [countStart, countStop, coexist]
        · rw [if_neg (show ¬(c0 = c ∧ ch0 = ch) from fun hh => h1 hh.1)]
          simp [countStart, countStop, coexist]
        · rw [if_neg (show ¬(c0 = c ∧ ch0 = ch) from fun hh => h1 hh.1)]
          simp [countStart, countStop, coexist]

/-- One unsubscribe event under the orchestrator invariant, for a pair that is
currently subscribed: a close route is emitted iff the channel has a stream,
and the balance moves with the coexistence change. -/
theorem unsubscribe_step (st : OrchState) (c ch : Nat)
    (hinv : OrchInv st) (hok : subscriptionExists st c ch = true) :
    ∃ st2 relays, applyEvent st (.unsubscribe c ch) = .ok (st2, relays) ∧
      OrchInv st2 ∧
      ∀ ch0 c0,
        countStart relays ch0 c0 + (if coexist st ch0 c0 = true then 1 else 0) =
        countStop relays ch0 c0 + (if coexist st2 ch0 c0 = true then 1 else 0) := by
  obtain ⟨hS, hsub⟩ := hinv
  have hinv2 : OrchInv ⟨st.streamStore, (RemoveSubscription st.subscriptions c ch).1,
      st.pendingConnections, st.connections⟩ :=
    ⟨hS, removeSubscription_inv _ c ch hsub⟩
  have hcx2 : ∀ ch0 c0,
      coexist ⟨st.streamStore, (RemoveSubscription st.subscriptions c ch).1,
        st.pendingConnections, st.connections⟩ ch0 c0 =
      (streamExists st ch0 &&
        (if c0 = c ∧ ch0 = ch then false else subscriptionExists st c0 ch0)) := by
    intro ch0 c0
    unfold coexist subscriptionExists
    rw [any_getConn_remove]
    rfl
  cases hstream : GetStreamByChannelId st.streamStore ch with
  | some stream =>
      have hschan : stream.ChannelId = ch := (hS.1 ch stream hstream).1
      refine ⟨⟨st.streamStore, (RemoveSubscription st.subscriptions c ch).1,
        st.pendingConnections, st.connections⟩, [closeRoute stream c], ?_, hinv2, ?_⟩
      · simp [applyEvent, connectionChannelSubscription, hstream]
      · intro ch0 c0
        rw [hcx2]
        by_cases h1 : c0 = c <;> by_cases h2 : ch0 = ch
        · have cs : countStart [closeRoute stream c] ch0 c0 = 0 := by
            simp [countStart, closeRoute]
          have cp : countStop [closeRoute stream c] ch0 c0 = 1 := by
            simp [countStop, closeRoute, hschan, h1, h2]
          have cx1 : coexist st ch0 c0 = true := by
            simp [coexist, streamExists, h1, h2, hstream, hok]
          have hse : streamExists st ch0 = true := by
            simp [streamExists, h2, hstream]
          rw [cs, cp, cx1, hse, if_pos (show c0 = c ∧ ch0 = ch from ⟨h1, h2⟩)]
          simp
        · have cs : countStart [closeRoute stream c] ch0 c0 = 0 := by
            simp [countStart, closeRoute]
          have cp : countStop [closeRoute stream c] ch0 c0 = 0 := by
            simp [countStop, closeRoute, hschan]
            exact fun hh => absurd hh.symm h2
          rw [cs, cp, if_neg (show ¬(c0 = c ∧ ch0 = ch) from fun hh => h2 hh.2)]
          simp [coexist]
        · have cs : countStart [closeRoute stream c] ch0 c0 = 0 := by
            simp [countStart, closeRoute]
          have cp : countStop [closeRoute stream c] ch0 c0 = 0 := by
            simp [countStop, closeRoute]
            exact fun _ hh => absurd hh.symm h1
          rw [cs, cp, if_neg (show ¬(c0 = c ∧ ch0 = ch) from fun hh => h1 hh.1)]
          simp [coexist]
        · have cs : countStart [closeRoute stream c] ch0 c0 = 0 := by
            simp [countStart, closeRoute]
          have cp : countStop [closeRoute stream c] ch0 c0 = 0 := by
            simp [countStop, closeRoute]
            exact fun _ hh => absurd hh.symm h1
          rw [cs, cp, if_neg (show ¬(c0 = c ∧ ch0 = ch) from fun hh => h1 hh.1)]
          simp [coexist]
  | none =>
      refine ⟨⟨st.streamStore, (RemoveSubscription st.subscriptions c ch).1,
        st.pendingConnections, st.connections⟩, [], ?_, hinv2, ?_⟩
      · simp [applyEvent, connectionChannelSubscription, hstream]
      · intro ch0 c0
        rw [hcx2]
        by_cases h1 : c0 = c <;> by_cases h2 : ch0 = ch
        · have hse : streamExists st ch0 = false := by
            simp [streamExists, h2, hstream]
          have cx1 : coexist st ch0 c0 = false := by
            simp [coexist, hse]
          rw [cx1, hse]
          simp [countStart, countStop]
        · rw [if_neg (show ¬(c0 = c ∧ ch0 = ch) from fun hh => h2 hh.2)]
          simp [countStart, countStop, coexist]
        · rw [if_neg (show ¬(c0 = c ∧ ch0 = ch) from fun hh => h1 hh.1)]
          simp [countStart, countStop, coexist]
        · rw [if_neg (show ¬(c0 = c ∧ ch0 = ch) from fun hh => h1 hh.1)]
          simp [countStart, countStop, coexist]

/-- One publish event under the orchestrator invariant, on a channel with no
current stream: `AddStream` succeeds, one start route is emitted per channel
subscription (at most one per subscriber in these runs), and the balance
moves with the coexistence change. -/
theorem publish_step (st : OrchState) (c ch sid : Nat)
    (hinv : OrchInv st) (hok : streamExists st ch = false) :
    ∃ st2 relays, applyEvent st (.publish c ch sid) = .ok (st2, relays) ∧
      OrchInv st2 ∧
      ∀ ch0 c0,
        countStart relays ch0 c0 + (if coexist st ch0 c0 = true then 1 else 0) =
        countStop relays ch0 c0 + (if coexist st2 ch0 c0 = true then 1 else 0) := by
  obtain ⟨hS, hsub⟩ := hinv
  have hnone : alookup st.streamStore.streamByChannelId ch = none := by
    cases hlk : alookup st.streamStore.streamByChannelId ch with
    | none => rfl
    | some s =>
        exfalso
        unfold streamExists GetStreamByChannelId at hok
        rw [hlk] at hok
        simp at hok
  have hinv2 : OrchInv
      ⟨⟨aset st.streamStore.streamByChannelId ch ⟨c, ch, sid⟩,
        aset st.streamStore.streamsByIngestConnection c
          ((alookup st.streamStore.streamsByIngestConnection c).getD [] ++
            [⟨c, ch, sid⟩])⟩,
       st.subscriptions, st.pendingConnections, st.connections⟩ :=
    ⟨addStream_inv st.streamStore ⟨c, ch, sid⟩ ⟨hS.1, hS.2⟩ hnone, hsub⟩
  refine ⟨⟨⟨aset st.streamStore.streamByChannelId ch ⟨c, ch, sid⟩,
      aset st.streamStore.streamsByIngestConnection c
        ((alookup st.streamStore.streamsByIngestConnection c).getD [] ++
          [⟨c, ch, sid⟩])⟩,
     st.subscriptions, st.pendingConnections, st.connections⟩,
    (GetChannelSubscriptions st.subscriptions ch).map (fun sub =>
      openRoute ⟨c, ch, sid⟩ sub.SubscribedConnection sub.StreamKey),
    ?_, hinv2, ?_⟩
  · simp [applyEvent, connectionStreamPublish,
      addStream_ok st.streamStore ⟨c, ch, sid⟩ hnone]
  · intro ch0 c0
    by_cases h2 : ch0 = ch
    · have hchan : (⟨c, ch, sid⟩ : Stream).ChannelId = ch0 := h2.symm
      have cs : countStart ((GetChannelSubscriptions st.subscriptions ch).map
          (fun sub =>
            openRoute ⟨c, ch, sid⟩ sub.SubscribedConnection sub.StreamKey)) ch0 c0 =
          if subscriptionExists st c0 ch0 = true then 1 else 0 := by
        rw [countStart_map_openRoute, if_pos hchan, h2]
        show (pairSubsChan st.subscriptions ch c0).length = _
        rw [← hsub.2.2.1 c0 ch]
        exact pair_length_ite st c0 ch (hsub.2.2.2 c0 ch)
      have cp : countStop ((GetChannelSubscriptions st.subscriptions ch).map
          (fun sub =>
            openRoute ⟨c, ch, sid⟩ sub.SubscribedConnection sub.StreamKey)) ch0 c0 =
          0 := countStop_map_openRoute _ _ _ _
      have cx1 : coexist st ch0 c0 = false := by
        simp [coexist, h2, hok]
      have hse : streamExists
          ⟨⟨aset st.streamStore.streamByChannelId ch ⟨c, ch, sid⟩,
            aset st.streamStore.streamsByIngestConnection c
              ((alookup st.streamStore.streamsByIngestConnection c).getD [] ++
                [⟨c, ch, sid⟩])⟩,
           st.subscriptions, st.pendingConnections, st.connections⟩ ch0 = true := by
        unfold streamExists GetStreamByChannelId
        rw [h2]
        show (alookup (aset st.streamStore.streamByChannelId ch ⟨c, ch, sid⟩)
          ch).isSome = true
        rw [alookup_aset_self]
        rfl
      have cx2 : coexist
          ⟨⟨aset st.streamStore.streamByChannelId ch ⟨c, ch, sid⟩,
            aset st.streamStore.streamsByIngestConnection c
              ((alookup st.streamStore.streamsByIngestConnection c).getD [] ++
                [⟨c, ch, sid⟩])⟩,
           st.subscriptions, st.pendingConnections, st.connections⟩ ch0 c0 =
          subscriptionExists st c0 ch0 := by
        unfold coexist
        rw [hse, Bool.true_and]
        rfl
      rw [cs, cp, cx1, cx2]
      simp
    · have hcond : ¬((⟨c, ch, sid⟩ : Stream).ChannelId = ch0) :=
        fun hh => h2 hh.symm
      have cs : countStart ((GetChannelSubscriptions st.subscriptions ch).map
          (fun sub =>
            openRoute ⟨c, ch, sid⟩ sub.SubscribedConnection sub.StreamKey)) ch0 c0 =
          0 := by
        rw [countStart_map_openRoute, if_neg hcond]
      have cp : countStop ((GetChannelSubscriptions st.subscriptions ch).map
          (fun sub =>
            openRoute ⟨c, ch, sid⟩ sub.SubscribedConnection sub.StreamKey)) ch0 c0 =
          0 := countStop_map_openRoute _ _ _ _
      have hse : streamExists
          ⟨⟨aset st.streamStore.streamByChannelId ch ⟨c, ch, sid⟩,
            aset st.streamStore.streamsByIngestConnection c
              ((alookup st.streamStore.streamsByIngestConnection c).getD [] ++
                [⟨c, ch, sid⟩])⟩,
           st.subscriptions, st.pendingConnections, st.connections⟩ ch0 =
          streamExists st ch0 := by
        unfold streamExists GetStreamByChannelId
        show (alookup (aset st.streamStore.streamByChannelId ch ⟨c, ch, sid⟩)
          ch0).isSome = _
        rw [alookup_aset_ne _ _ _ _ h2]
      have cx2 : coexist
          ⟨⟨aset st.streamStore.streamByChannelId ch ⟨c, ch, sid⟩,
            aset st.streamStore.streamsByIngestConnection c
              ((alookup st.streamStore.streamsByIngestConnection c).getD [] ++
                [⟨c, ch, sid⟩])⟩,
           st.subscriptions, st.pendingConnections, st.connections⟩ ch0 c0 =
          coexist st ch0 c0 := by
        unfold coexist
        rw [hse]
        rfl
      rw [cs, cp, cx2]

theorem getStream_removeStream_self (ss : StreamStore) (ch sid : Nat) :
    alookup (RemoveStream ss ch sid).1.streamByChannelId ch = none := by
  unfold RemoveStream
  cases hlk : alookup ss.streamByChannelId ch with
  | none =>
      simp only [hlk]
  | some rs =>
      simp only [hlk]
      cases hlk2 : alookup ss.streamsByIngestConnection rs.IngestConnection with
      | none =>
          simp only [hlk2]
          exact alookup_aerase_self _ _
      | some sl =>
          simp only [hlk2]
          exact alookup_aerase_self _ _

/-- One unpublish event under the orchestrator invariant, carrying the stored
stream id, on a channel with no current subscriptions: the stream (if any) is
removed from both indices, no relay instruction is emitted, and the balance is
unchanged (no pair coexists on the channel before or after). -/
theorem unpublish_step (st : OrchState) (c ch sid : Nat)
    (hinv : OrchInv st)
    (hok1 : ∀ s, GetStreamByChannelId st.streamStore ch = some s →
      s.StreamId = sid)
    (hok2 : GetChannelSubscriptions st.subscriptions ch = []) :
    ∃ st2 relays, applyEvent st (.unpublish c ch sid) = .ok (st2, relays) ∧
      OrchInv st2 ∧
      ∀ ch0 c0,
        countStart relays ch0 c0 + (if coexist st ch0 c0 = true then 1 else 0) =
        countStop relays ch0 c0 + (if coexist st2 ch0 c0 = true then 1 else 0) := by
  obtain ⟨hS, hsub⟩ := hinv
  have hinv2 : OrchInv ⟨(RemoveStream st.streamStore ch sid).1, st.subscriptions,
      st.pendingConnections, st.connections⟩ :=
    ⟨removeStream_inv st.streamStore ch sid ⟨hS.1, hS.2⟩ hok1, hsub⟩
  refine ⟨⟨(RemoveStream st.streamStore ch sid).1, st.subscriptions,
      st.pendingConnections, st.connections⟩, [], ?_, hinv2, ?_⟩
  · simp [applyEvent, connectionStreamPublish]
  · intro ch0 c0
    by_cases h2 : ch0 = ch
    · have hpair : pairSubsConn st.subscriptions c0 ch = [] := by
        rw [hsub.2.2.1 c0 ch]
        unfold pairSubsChan
        rw [hok2]
        rfl
      have hsubex : subscriptionExists st c0 ch = false := by
        cases hx : subscriptionExists st c0 ch with
        | false => rfl
        | true => exact absurd hpair ((subscriptionExists_iff_pair st c0 ch).mp hx)
      have cx1 : coexist st ch0 c0 = false := by
        simp [coexist, h2, hsubex]
      have cx2 : coexist ⟨(RemoveStream st.streamStore ch sid).1, st.subscriptions,
          st.pendingConnections, st.connections⟩ ch0 c0 = false := by
        have hse : streamExists ⟨(RemoveStream st.streamStore ch sid).1,
            st.subscriptions, st.pendingConnections, st.connections⟩ ch0 = false := by
          unfold streamExists GetStreamByChannelId
          rw [h2]
          show (alookup (RemoveStream st.streamStore ch sid).1.streamByChannelId
            ch).isSome = false
          rw [getStream_removeStream_self]
          rfl
        unfold coexist
        rw [hse]
        rfl
      rw [cx1, cx2]
      rfl
    · have hse : streamExists ⟨(RemoveStream st.streamStore ch sid).1,
          st.subscriptions, st.pendingConnections, st.connections⟩ ch0 =
          streamExists st ch0 := by
        unfold streamExists GetStreamByChannelId
        show (alookup (RemoveStream st.streamStore ch sid).1.streamByChannelId
          ch0).isSome = _
        rw [getStream_removeStream_ne st.streamStore ch sid ch0 h2]
      have cx2 : coexist ⟨(RemoveStream st.streamStore ch sid).1, st.subscriptions,
          st.pendingConnections, st.connections⟩ ch0 c0 = coexist st ch0 c0 := by
        unfold coexist
        rw [hse]
        rfl
      rw [cx2]
      rfl

/-- One connection-closed event under the orchestrator invariant, for a
connection that is not the origin of any current stream: a close route is
emitted for each of the connection's subscriptions whose channel has a stream,
the stream store is untouched, the connection's subscriptions are cleared, and
the balance moves with the coexistence change. -/
theorem closed_step (st : OrchState) (c : Nat)
    (hinv : OrchInv st)
    (hok : st.streamStore.streamByChannelId.all
      (fun p => !(p.2.IngestConnection == c)) = true) :
    ∃ st2 relays, applyEvent st (.closed c) = .ok (st2, relays) ∧
      OrchInv st2 ∧
      ∀ ch0 c0,
        countStart relays ch0 c0 + (if coexist st ch0 c0 = true then 1 else 0) =
        countStop relays ch0 c0 + (if coexist st2 ch0 c0 = true then 1 else 0) := by
  obtain ⟨hS, hsub⟩ := hinv
  have hnoop : (RemoveAllConnectionStreams st.streamStore c).1 = st.streamStore := by
    refine removeAll_noop st.streamStore c ⟨hS.1, hS.2⟩ ?_
    intro p hp
    have := List.all_eq_true.mp hok p hp
    simpa using this
  obtain ⟨ss2, hclear, hconn2, hchan2⟩ :=
    clearSubscriptions_char st.subscriptions c ⟨hsub.1, hsub.2.1, hsub.2.2.1, hsub.2.2.2⟩
  have hinv2 : OrchInv ⟨st.streamStore, ss2,
      st.pendingConnections.filter (fun x => !(x == c)),
      st.connections.filter (fun x => !(x == c))⟩ :=
    ⟨⟨hS.1, hS.2⟩, clearSubscriptions_inv st.subscriptions c
      ⟨hsub.1, hsub.2.1, hsub.2.2.1, hsub.2.2.2⟩ ss2 hconn2 hchan2⟩
  have hsx2 : ∀ c0 ch0, subscriptionExists ⟨st.streamStore, ss2,
      st.pendingConnections.filter (fun x => !(x == c)),
      st.connections.filter (fun x => !(x == c))⟩ c0 ch0 =
      (if c0 = c then false else subscriptionExists st c0 ch0) := by
    intro c0 ch0
    unfold subscriptionExists
    show (GetConnectionSubscriptions ss2 c0).any (fun sub => sub.ChannelId == ch0) = _
    rw [hconn2 c0]
    by_cases h1 : c0 = c
    · rw [if_pos h1, if_pos h1]
      rfl
    · rw [if_neg h1, if_neg h1]
  refine ⟨⟨st.streamStore, ss2,
      st.pendingConnections.filter (fun x => !(x == c)),
      st.connections.filter (fun x => !(x == c))⟩,
    (GetConnectionSubscriptions st.subscriptions c).filterMap (fun sub =>
      match alookup st.streamStore.streamByChannelId sub.ChannelId with
      | some stream => some (closeRoute stream c)
      | none => none), ?_, hinv2, ?_⟩
  · show connectionClosed st c = _
    simp only [connectionClosed, GetStreamByChannelId, hclear, hnoop]
  · intro ch0 c0
    have cs : countStart ((GetConnectionSubscriptions st.subscriptions c).filterMap
        (fun sub =>
          match alookup st.streamStore.streamByChannelId sub.ChannelId with
          | some stream => some (closeRoute stream c)
          | none => none)) ch0 c0 = 0 :=
      closed_relays_countStart st.streamStore _ c ch0 c0
    by_cases h1 : c0 = c
    · have cp : countStop ((GetConnectionSubscriptions st.subscriptions c).filterMap
          (fun sub =>
            match alookup st.streamStore.streamByChannelId sub.ChannelId with
            | some stream => some (closeRoute stream c)
            | none => none)) ch0 c0 =
          (pairSubsConn st.subscriptions c ch0).length *
            (if streamExists st ch0 = true then 1 else 0) := by
        rw [closed_relays_countStop st.streamStore (fun ch s h => (hS.1 ch s h).1)
          _ c ch0 c0, if_pos h1]
        rfl
      have cx2 : coexist ⟨st.streamStore, ss2,
          st.pendingConnections.filter (fun x => !(x == c)),
          st.connections.filter (fun x => !(x == c))⟩ ch0 c0 = false := by
        unfold coexist
        rw [hsx2 c0 ch0, if_pos h1]
        simp
      have hcx1 : coexist st ch0 c0 =
          (streamExists st ch0 && subscriptionExists st c ch0) := by
        unfold coexist
        rw [h1]
      rw [cs, cp, cx2, hcx1,
        pair_length_ite st c ch0 (hsub.2.2.2 c ch0)]
      cases hA : streamExists st ch0 <;>
        cases hB : subscriptionExists st c ch0 <;>
        simp [hA, hB]
    · have cp : countStop ((GetConnectionSubscriptions st.subscriptions c).filterMap
          (fun sub =>
            match alookup st.streamStore.streamByChannelId sub.ChannelId with
            | some stream => some (closeRoute stream c)
            | none => none)) ch0 c0 = 0 := by
        rw [closed_relays_countStop st.streamStore (fun ch s h => (hS.1 ch s h).1)
          _ c ch0 c0, if_neg h1]
      have cx2 : coexist ⟨st.streamStore, ss2,
          st.pendingConnections.filter (fun x => !(x == c)),
          st.connections.filter (fun x => !(x == c))⟩ ch0 c0 =
          coexist st ch0 c0 := by
        unfold coexist
        rw [hsx2 c0 ch0, if_neg h1]
        rfl
      rw [cs, cp, cx2]

/-- Running any legal interleaving from an invariant state succeeds, preserves
the invariant, and moves the start/stop balance of every (channel, subscriber)
pair exactly with the pair's coexistence. -/
theorem runEvents_net (evs : List OrchEvent) : ∀ st : OrchState, OrchInv st →
    LegalEvents st evs →
    ∃ st2 relays, runEvents st evs = .ok (st2, relays) ∧ OrchInv st2 ∧
      ∀ ch0 c0,
        countStart relays ch0 c0 + (if coexist st ch0 c0 = true then 1 else 0) =
        countStop relays ch0 c0 + (if coexist st2 ch0 c0 = true then 1 else 0) := by
  induction evs with
  | nil =>
      intro st hinv _
      exact ⟨st, [], rfl, hinv, fun ch0 c0 => rfl⟩
  | cons e rest ih =>
      intro st hinv hlegal
      have hlegal' : EventOkB st e = true ∧ LegalEvents (stepEvent st e) rest :=
        hlegal
      obtain ⟨hEv, hrest⟩ := hlegal'
      have hstep : ∃ st2 relays, applyEvent st e = .ok (st2, relays) ∧
          OrchInv st2 ∧
          ∀ ch0 c0,
            countStart relays ch0 c0 +
              (if coexist st ch0 c0 = true then 1 else 0) =
            countStop relays ch0 c0 +
              (if coexist st2 ch0 c0 = true then 1 else 0) := by
        cases e with
        | subscribe c ch k =>
            have hEv2 : subscriptionExists st c ch = false := by
              have h : (!subscriptionExists st c ch) = true := hEv
              simpa using h
            exact subscribe_step st c ch k hinv hEv2
        | unsubscribe c ch =>
            exact unsubscribe_step st c ch hinv hEv
        | publish c ch sid =>
            have hEv2 : streamExists st ch = false := by
              have h : (!streamExists st ch) = true := hEv
              simpa using h
            exact publish_step st c ch sid hinv hEv2
        | unpublish c ch sid =>
            have h : ((match GetStreamByChannelId st.streamStore ch with
                | some s => s.StreamId == sid
                | none => true) &&
              (GetChannelSubscriptions st.subscriptions ch).isEmpty) = true := hEv
            rw [Bool.and_eq_true] at h
            obtain ⟨ha, hb⟩ := h
            have hok1 : ∀ s, GetStreamByChannelId st.streamStore ch = some s →
                s.StreamId = sid := by
              intro s hs
              rw [hs] at ha
              exact beq_iff_eq.mp (show (s.StreamId == sid) = true from ha)
            have hok2 : GetChannelSubscriptions st.subscriptions ch = [] := by
              cases hl : GetChannelSubscriptions st.subscriptions ch with
              | nil => rfl
              | cons a t =>
                  rw [hl] at hb
                  simp at hb
            exact unpublish_step st c ch sid hinv hok1 hok2
        | closed c =>
            exact closed_step st c hinv hEv
      obtain ⟨st2, relays1, happ, hinv2, hbal1⟩ := hstep
      have hstEq : stepEvent st e = st2 := by
        unfold stepEvent
        rw [happ]
      rw [hstEq] at hrest
      obtain ⟨st3, relays2, hrun, hinv3, hbal2⟩ := ih st2 hinv2 hrest
      refine ⟨st3, relays1 ++ relays2, ?_, hinv3, ?_⟩
      · simp only [runEvents, happ, hrun]
      · intro ch0 c0
        have h1 := hbal1 ch0 c0
        have h2 := hbal2 ch0 c0
        rw [countStart_append, countStop_append]
        omega

/-- Counterexample to C1 as stated: publish channel 5 from connection 1,
subscribe connection 2 (one start relay), then unpublish.  Unpublishing sends
no stop relay, so the (channel 5, subscriber 2) start/stop difference stays 1
although no stream coexists with the remaining subscription. -/
theorem routing_conservation_cex :
    (runEvents emptyOrchestrator
        [.publish 1 5 9, .subscribe 2 5 [7], .unpublish 1 5 9]).map
      (fun r => (countStart r.2 5 2, countStop r.2 5 2, coexist r.1 5 2)) =
      .ok (1, 0, false) := by
  decide

/-- **C1** (amended) — Routing conservation holds on the legal interleavings:
starting from an empty orchestrator, after any interleaving of publish,
unpublish, subscribe, unsubscribe, and connection-closed events in which every
subscribe targets a (connection, channel) pair not currently subscribed, every
unsubscribe a currently subscribed pair, every publish a channel with no
current stream, every unpublish carries the stored stream id and hits a
channel with no current subscriptions, and every closed connection is not the
origin of any current stream, the run succeeds and the number of StreamRelay
instructions with `isStartRelay = true` minus those with `isStartRelay =
false` emitted per (channel, subscriber) pair equals 1 if a stream and a
subscription for that channel and subscriber currently coexist, and 0
otherwise.  (Outside these side conditions the property fails, e.g.
`routing_conservation_cex`: an unpublish emits no stop relays.) -/
theorem routing_conservation (evs : List OrchEvent)
    (hlegal : LegalEvents emptyOrchestrator evs) :
    ∃ st relays, runEvents emptyOrchestrator evs = .ok (st, relays) ∧
      ∀ ch c, countStart relays ch c =
        countStop relays ch c + (if coexist st ch c = true then 1 else 0) := by
  obtain ⟨st, relays, hrun, -, hbal⟩ :=
    runEvents_net evs emptyOrchestrator orchInv_empty hlegal
  refine ⟨st, relays, hrun, ?_⟩
  intro ch c
  have hb := hbal ch c
  have hcx : coexist emptyOrchestrator ch c = false := rfl
  rw [hcx] at hb
  simpa using hb

/-- Witness for the amended C1 on a concrete legal interleaving: publish,
subscribe, unsubscribe, unpublish, close. -/
theorem routing_conservation_witness :
    LegalEvents emptyOrchestrator
      [.publish 1 5 9, .subscribe 2 5 [7], .unsubscribe 2 5,
       .unpublish 1 5 9, .closed 1] ∧
    ∃ st relays, runEvents emptyOrchestrator
        [.publish 1 5 9, .subscribe 2 5 [7], .unsubscribe 2 5,
         .unpublish 1 5 9, .closed 1] = .ok (st, relays) ∧
      ∀ ch c, countStart relays ch c =
        countStop relays ch c + (if coexist st ch c = true then 1 else 0) :=
  ⟨by decide, routing_conservation _ (by decide)⟩

end JanusFtl
